import Mathlib

/-!
Verification of the tabular dataset loaders of the second notebook of the
repository (Exercise 2: Logistic Regression).  The notebook defines three
functions: `image_features`, `load_wisconsin_breast_cancer_diagnosis` and
`load_wisconsin_breast_cancer_prognosis`.  They are shallowly embedded
here: a delimited file is a list of rows, each row a list of raw string
fields, and the pandas operations the loaders invoke (read_csv with a
positional schema, categorical relabeling, column drop and selection,
float coercion) are modelled as executable Lean functions over that table
abstraction.  Fallible operations return `Except LoadError`.
-/

namespace WBC

/-- A cell of a parsed table: either a raw string field or the explicit
missing marker (the NaN produced by na_values decoding). -/
inductive Cell where
  | str : String → Cell
  | missing : Cell
deriving DecidableEq, Repr

/-- A cell after float coercion: a validated numeric literal (kept in
literal form) or the missing marker (NaN). -/
inductive NumCell where
  | num : String → NumCell
  | missing : NumCell
deriving DecidableEq, Repr

/-- The failure modes of a load: absent file (an I/O error), a row whose
field count does not match the schema (a tokenizing parse error), a cell
that cannot be coerced to float (a type error), and a category-relabeling
cardinality mismatch (a value error). -/
inductive LoadError where
  | fileNotFound
  | parserError
  | typeError
  | valueError
deriving DecidableEq, Repr

/-- A parsed table: a row index, data column names, and rows of cells. -/
structure DataFrame where
  index : List String
  columns : List String
  rows : List (List Cell)
deriving DecidableEq, Repr

/-- A table after float coercion of every cell. -/
structure NumFrame where
  index : List String
  columns : List String
  rows : List (List NumCell)
deriving DecidableEq, Repr

/-- A single labelled column (a pandas Series): a row index and values. -/
structure Series where
  index : List String
  values : List Cell
deriving DecidableEq, Repr

/-- Numeric literal syntax accepted by the float coercion model: an
optional sign, then at least one digit, with at most one decimal point
among digits. -/
def isNumericStr (s : String) : Bool :=
  let cs :=
    match s.data with
    | '-' :: rest => rest
    | '+' :: rest => rest
    | cs => cs
  cs.any (fun c => c.isDigit) &&
    cs.all (fun c => c.isDigit || c == '.') &&
    (cs.filter (fun c => c == '.')).length ≤ 1

/-- Decode one raw field: fields listed in na_values become the explicit
missing marker, every other field stays a raw string. -/
def naCell (naTokens : List String) (s : String) : Cell :=
  if s ∈ naTokens then Cell.missing else Cell.str s

/-- Model of pandas.read_csv as invoked by both loaders: header=None, a
full positional schema in names, index_col=0 taking the first field of
each row as the row label.  Every row must have exactly as many fields as
names, otherwise the tokenizer raises a parse error.  Fields listed in
na_values decode to the missing marker; only the explicitly passed
na_values are modelled. -/
def read_csv (naTokens : List String) (names : List String)
    (raw : List (List String)) : Except LoadError DataFrame :=
  if raw.all (fun r => r.length == names.length) then
    .ok { index := raw.map (fun r => r.headD "")
        , columns := names.tail
        , rows := raw.map (fun r => r.tail.map (naCell naTokens)) }
  else .error .parserError

/-- Position of a name in a list of column names (length if absent). -/
def idxOf (s : String) : List String → Nat
  | [] => 0
  | t :: ts => if s = t then 0 else idxOf s ts + 1

/-- Single-column access (the attribute and .loc column reads). -/
def DataFrame.col (df : DataFrame) (name : String) : List Cell :=
  df.rows.map (fun r => r.getD (idxOf name df.columns) Cell.missing)

/-- One row of DataFrame.drop: keep exactly the cells whose column name is
not being dropped. -/
def dropRow (names cols : List String) (r : List Cell) : List Cell :=
  (cols.zip r).filterMap (fun p => if p.1 ∈ names then none else some p.2)

/-- Model of DataFrame.drop(names, axis=1). -/
def DataFrame.drop (df : DataFrame) (names : List String) : DataFrame :=
  { index := df.index
  , columns := df.columns.filter (fun c => decide (c ∉ names))
  , rows := df.rows.map (dropRow names df.columns) }

/-- Model of data.loc[:, names]: the listed columns, in the given order. -/
def DataFrame.select (df : DataFrame) (names : List String) : DataFrame :=
  { index := df.index
  , columns := names
  , rows := df.rows.map (fun r => names.map (fun n => r.getD (idxOf n df.columns) Cell.missing)) }

/-- Replace one column of a frame by new cells (the in-place relabeling of
the outcome column of the prognosis labels frame). -/
def DataFrame.setCol (df : DataFrame) (name : String) (cells : List Cell) : DataFrame :=
  { df with rows := (df.rows.zip cells).map (fun p => p.1.set (idxOf name df.columns) p.2) }

/-- Float coercion of one cell by astype(float): the missing marker stays
missing (NaN); any other cell must be a numeric literal, kept in validated
literal form; a non-numeric cell raises a type error. -/
def cellToFloat (c : Cell) : Except LoadError NumCell :=
  match c with
  | .missing => .ok .missing
  | .str s => if isNumericStr s then .ok (.num s) else .error .typeError

/-- Coerce every cell of a row, aborting at the first failure. -/
def coerceRow : List Cell → Except LoadError (List NumCell)
  | [] => .ok []
  | c :: cs =>
    match cellToFloat c with
    | .error e => .error e
    | .ok v =>
      match coerceRow cs with
      | .error e => .error e
      | .ok vs => .ok (v :: vs)

/-- Coerce every row of a table, aborting at the first failure. -/
def coerceRows : List (List Cell) → Except LoadError (List (List NumCell))
  | [] => .ok []
  | r :: rs =>
    match coerceRow r with
    | .error e => .error e
    | .ok v =>
      match coerceRows rs with
      | .error e => .error e
      | .ok vs => .ok (v :: vs)

/-- Model of DataFrame.astype(float). -/
def DataFrame.astypeFloat (df : DataFrame) : Except LoadError NumFrame :=
  match coerceRows df.rows with
  | .error e => .error e
  | .ok rows2 => .ok { index := df.index, columns := df.columns, rows := rows2 }

/-- Lexicographic strict order on character lists by code point (the sort
order of string category codes). -/
def lexLt : List Char → List Char → Bool
  | [], [] => false
  | [], _ :: _ => true
  | _ :: _, [] => false
  | a :: as, b :: bs =>
    if a.toNat < b.toNat then true
    else if b.toNat < a.toNat then false
    else lexLt as bs

/-- Lexicographic strict order on strings by code point. -/
def strLt (s t : String) : Bool := lexLt s.data t.data

/-- Insert a value into an ascending duplicate-free list of category
names, keeping it ascending and duplicate-free. -/
def insertCat (s : String) : List String → List String
  | [] => [s]
  | t :: ts =>
    if strLt s t then s :: t :: ts
    else if s = t then t :: ts
    else t :: insertCat s ts

/-- Model of the category set of a categorical column produced by
read_csv with dtype category: the distinct non-missing values of the
column, in ascending lexicographic order. -/
def catOf (cells : List Cell) : List String :=
  cells.foldr
    (fun c acc =>
      match c with
      | .missing => acc
      | .str s => insertCat s acc)
    []

/-- Model of Categorical.rename_categories with a list argument: the list
must have exactly as many entries as there are categories, otherwise a
value error is raised; each value is relabeled positionally through the
sorted categories, and the missing marker stays missing. -/
def rename_categories (cells : List Cell) (newNames : List String) :
    Except LoadError (List Cell) :=
  let cats := catOf cells
  if cats.length = newNames.length then
    .ok (cells.map (fun c =>
      match c with
      | .missing => Cell.missing
      | .str s => Cell.str (newNames.getD (idxOf s cats) s)))
  else .error .valueError

/-- The 30 generated image-feature names: the 10 base measurement names
prefixed with mean_, then se_, then worst_. -/
def image_features : List String :=
  let names := ["radius", "texture", "perimeter", "area", "smoothness", "compactness",
                "concavity", "concave points", "symmetry", "fractal dimension"]
  names.map (fun v => "mean_" ++ v) ++
    (names.map (fun v => "se_" ++ v) ++ names.map (fun v => "worst_" ++ v))

/-- The diagnosis loader, over the contents of the file: schema of ID,
diagnosis and the 30 image features; the diagnosis column is categorical
and is relabeled to benign and malignant; the remaining columns are the
features and are coerced to float. -/
def load_wisconsin_breast_cancer_diagnosis (raw : List (List String)) :
    Except LoadError (NumFrame × Series) :=
  let columns := ["ID", "diagnosis"] ++ image_features
  match read_csv [] columns raw with
  | .error e => .error e
  | .ok data =>
    match rename_categories (data.col "diagnosis") ["benign", "malignant"] with
    | .error e => .error e
    | .ok yvals =>
      match (data.drop ["diagnosis"]).astypeFloat with
      | .error e => .error e
      | .ok X => .ok (X, { index := data.index, values := yvals })

/-- The prognosis loader, over the contents of the file: schema of ID,
outcome, time, the 30 image features, tumor_size and lymph_node_status;
na_values is the single token for missing values; the outcome and time
columns form the labels frame, the outcome categories are relabeled in
place to nonrecurring and recurring, and every remaining column is
coerced to float. -/
def load_wisconsin_breast_cancer_prognosis (raw : List (List String)) :
    Except LoadError (NumFrame × DataFrame) :=
  let columns := ["ID", "outcome", "time"] ++ (image_features ++ ["tumor_size", "lymph_node_status"])
  let outcomes := ["outcome", "time"]
  match read_csv ["?"] columns raw with
  | .error e => .error e
  | .ok data =>
    let y := data.select outcomes
    match rename_categories (y.col "outcome") ["nonrecurring", "recurring"] with
    | .error e => .error e
    | .ok outcomeVals =>
      match (data.drop outcomes).astypeFloat with
      | .error e => .error e
      | .ok X => .ok (X, y.setCol "outcome" outcomeVals)

/-- A file system for the loader entry points: file contents by path. -/
def FileSys : Type := String → Option (List (List String))

/-- The default file path of the diagnosis loader. -/
def wdbc_default_path : String := "datasets/wdbc.data"

/-- The default file path of the prognosis loader. -/
def wpbc_default_path : String := "datasets/wpbc.data"

/-- The diagnosis loader run against a file system: an absent file is an
I/O failure, otherwise the loader runs on the contents of the file. -/
def runLoadDiagnosis (fs : FileSys) (local_file : String) :
    Except LoadError (NumFrame × Series) :=
  match fs local_file with
  | none => .error .fileNotFound
  | some raw => load_wisconsin_breast_cancer_diagnosis raw

/-- The prognosis loader run against a file system. -/
def runLoadPrognosis (fs : FileSys) (local_file : String) :
    Except LoadError (NumFrame × DataFrame) :=
  match fs local_file with
  | none => .error .fileNotFound
  | some raw => load_wisconsin_breast_cancer_prognosis raw

/-- Whether an Except result is a success. -/
def isOkE {α : Type} (e : Except LoadError α) : Bool :=
  match e with
  | .ok _ => true
  | .error _ => false

end WBC

namespace WBC

/-- One float-coerced cell of the prognosis features: fields listed in
na_values become the missing marker, all others numeric literals. -/
def numOfNa (naTokens : List String) (s : String) : NumCell :=
  if s ∈ naTokens then NumCell.missing else NumCell.num s

/-- The sorted category codes of the diagnosis label column of a file. -/
def diagCats (raw : List (List String)) : List String :=
  catOf (raw.map (fun r => Cell.str (r.getD 1 "")))

/-- Closed form of the features table returned by the diagnosis loader. -/
def diagX (raw : List (List String)) : NumFrame :=
  { index := raw.map (fun r => r.headD "")
  , columns := image_features
  , rows := raw.map (fun r => r.tail.tail.map (fun s => NumCell.num s)) }

/-- Closed form of the label series returned by the diagnosis loader. -/
def diagY (raw : List (List String)) : Series :=
  { index := raw.map (fun r => r.headD "")
  , values := raw.map (fun r =>
      Cell.str (["benign", "malignant"].getD (idxOf (r.getD 1 "") (diagCats raw)) (r.getD 1 ""))) }

/-- The sorted category codes of the prognosis outcome column of a file,
after na_values decoding. -/
def progCats (raw : List (List String)) : List String :=
  catOf (raw.map (fun r => naCell ["?"] (r.getD 1 "")))

/-- Closed form of the features table returned by the prognosis loader. -/
def progX (raw : List (List String)) : NumFrame :=
  { index := raw.map (fun r => r.headD "")
  , columns := image_features ++ ["tumor_size", "lymph_node_status"]
  , rows := raw.map (fun r => r.tail.tail.tail.map (numOfNa ["?"])) }

/-- Closed form of one relabeled outcome cell of the prognosis loader. -/
def progOutcomeCell (raw : List (List String)) (r : List String) : Cell :=
  match naCell ["?"] (r.getD 1 "") with
  | Cell.missing => Cell.missing
  | Cell.str s => Cell.str (["nonrecurring", "recurring"].getD (idxOf s (progCats raw)) s)

/-- Closed form of the labels frame returned by the prognosis loader. -/
def progY (raw : List (List String)) : DataFrame :=
  { index := raw.map (fun r => r.headD "")
  , columns := ["outcome", "time"]
  , rows := raw.map (fun r => [progOutcomeCell raw r, naCell ["?"] (r.getD 2 "")]) }

/-- Well-formedness of a diagnosis file: every row has the 32 schema
fields, every feature field is a numeric literal, and the label column
carries exactly two distinct codes. -/
def diagWF (raw : List (List String)) : Bool :=
  raw.all (fun r => r.length == 32) &&
  raw.all (fun r => (r.drop 2).all (fun s => isNumericStr s)) &&
  ((diagCats raw).length == 2)

/-- Well-formedness of a prognosis file: every row has the 35 schema
fields, every coerced field (the 30 image features, tumor_size and
lymph_node_status) is a numeric literal or the missing token, and the
outcome column carries exactly two distinct codes. -/
def progWF (raw : List (List String)) : Bool :=
  raw.all (fun r => r.length == 35) &&
  raw.all (fun r => (r.drop 3).all (fun s => isNumericStr s || s == "?")) &&
  ((progCats raw).length == 2)

lemma naCell_nil (s : String) : naCell [] s = Cell.str s := by
  simp [naCell]

lemma catOf_cons_str (t : String) (cs : List Cell) :
    catOf (Cell.str t :: cs) = insertCat t (catOf cs) := rfl

lemma catOf_cons_missing (cs : List Cell) :
    catOf (Cell.missing :: cs) = catOf cs := rfl

lemma insertCat_mem {a s : String} {l : List String} :
    a ∈ insertCat s l ↔ a = s ∨ a ∈ l := by
  induction l with
  | nil => simp [insertCat]
  | cons t ts ih =>
    simp only [insertCat]
    split
    · simp [List.mem_cons]
    · split
      · rename_i hlt heq
        subst heq
        simp [List.mem_cons]
      · simp only [List.mem_cons, ih]
        tauto

lemma mem_catOf {s : String} {cells : List Cell} (h : Cell.str s ∈ cells) :
    s ∈ catOf cells := by
  induction cells with
  | nil => simp at h
  | cons c cs ih =>
    cases c with
    | missing =>
      rw [catOf_cons_missing]
      rcases List.mem_cons.mp h with hc | hc
      · exact absurd hc (by simp)
      · exact ih hc
    | str t =>
      rw [catOf_cons_str, insertCat_mem]
      rcases List.mem_cons.mp h with hc | hc
      · left
        injection hc
      · right
        exact ih hc

lemma idxOf_lt_length {s : String} {l : List String} (h : s ∈ l) :
    idxOf s l < l.length := by
  induction l with
  | nil => simp at h
  | cons t ts ih =>
    simp only [idxOf]
    split
    · simp
    · rename_i hne
      rcases List.mem_cons.mp h with hc | hc
      · exact absurd hc hne
      · simpa [Nat.succ_lt_succ_iff] using ih hc

lemma getD_pair {α : Type} {n : Nat} (h : n < 2) (a b d : α) :
    [a, b].getD n d = a ∨ [a, b].getD n d = b := by
  interval_cases n <;> simp

lemma coerceRow_str (fields : List String)
    (h : ∀ s ∈ fields, isNumericStr s = true) :
    coerceRow (fields.map Cell.str) = .ok (fields.map (fun s => NumCell.num s)) := by
  induction fields with
  | nil => rfl
  | cons s rest ih =>
    have hs : isNumericStr s = true := h s (by simp)
    have hrest := ih (fun t ht => h t (by simp [ht]))
    simp [coerceRow, cellToFloat, hs, hrest]

lemma coerceRow_na (toks fields : List String)
    (h : ∀ s ∈ fields, s ∈ toks ∨ isNumericStr s = true) :
    coerceRow (fields.map (naCell toks)) = .ok (fields.map (numOfNa toks)) := by
  induction fields with
  | nil => rfl
  | cons s rest ih =>
    have hrest := ih (fun t ht => h t (by simp [ht]))
    rcases h s (by simp) with hs | hs
    · simp [coerceRow, naCell, numOfNa, hs, cellToFloat, hrest]
    · by_cases hmem : s ∈ toks
      · simp [coerceRow, naCell, numOfNa, hmem, cellToFloat, hrest]
      · simp [coerceRow, naCell, numOfNa, hmem, cellToFloat, hs, hrest]

lemma coerceRows_map {α : Type} (l : List α) (f : α → List Cell) (g : α → List NumCell)
    (h : ∀ a ∈ l, coerceRow (f a) = .ok (g a)) :
    coerceRows (l.map f) = .ok (l.map g) := by
  induction l with
  | nil => rfl
  | cons a rest ih =>
    have ha := h a (by simp)
    have hrest := ih (fun b hb => h b (by simp [hb]))
    simp [coerceRows, ha, hrest]

lemma dropRow_keep (names : List String) :
    ∀ (cols : List String) (r : List Cell), (∀ c ∈ cols, c ∉ names) →
      dropRow names cols r = r.take cols.length := by
  intro cols
  induction cols with
  | nil => intro r _; simp [dropRow]
  | cons c cs ih =>
    intro r h
    cases r with
    | nil => simp [dropRow]
    | cons x xs =>
      have hc : c ∉ names := h c (by simp)
      have := ih xs (fun d hd => h d (by simp [hd]))
      simp [dropRow, hc] at this ⊢
      exact this

lemma exists_cons2 {r : List String} (h : 2 ≤ r.length) :
    ∃ a b rest, r = a :: b :: rest := by
  rcases r with _ | ⟨a, _ | ⟨b, rest⟩⟩
  · simp at h
  · simp at h
  · exact ⟨a, b, rest, rfl⟩

lemma exists_cons3 {r : List String} (h : 3 ≤ r.length) :
    ∃ a b c rest, r = a :: b :: c :: rest := by
  rcases r with _ | ⟨a, _ | ⟨b, _ | ⟨c, rest⟩⟩⟩
  · simp at h
  · simp at h
  · simp at h
  · exact ⟨a, b, c, rest, rfl⟩

end WBC

namespace WBC

lemma cellToFloat_error {c : Cell} {e : LoadError} (h : cellToFloat c = .error e) :
    e = .typeError := by
  cases c with
  | missing => simp [cellToFloat] at h
  | str s =>
    rw [cellToFloat] at h
    split at h
    · simp at h
    · injection h with h2
      exact h2.symm

lemma coerceRow_error {l : List Cell} {e : LoadError} (h : coerceRow l = .error e) :
    e = .typeError := by
  induction l with
  | nil => simp [coerceRow] at h
  | cons c cs ih =>
    rw [coerceRow] at h
    rcases hf : cellToFloat c with e2 | v
    · rw [hf] at h
      injection h with h2
      exact h2 ▸ cellToFloat_error hf
    · rw [hf] at h
      rcases hr : coerceRow cs with e3 | vs
      · rw [hr] at h
        injection h with h2
        exact ih (h2 ▸ hr)
      · rw [hr] at h
        simp at h

lemma coerceRow_bad {l : List Cell} (h : ∃ c ∈ l, cellToFloat c = .error .typeError) :
    coerceRow l = .error .typeError := by
  induction l with
  | nil => simp at h
  | cons c cs ih =>
    obtain ⟨c0, hc0, hbad⟩ := h
    rw [coerceRow]
    rcases List.mem_cons.mp hc0 with rfl | hmem
    · rw [hbad]
    · rcases hf : cellToFloat c with e2 | v
      · have he := cellToFloat_error hf
        subst he
        rfl
      · rw [ih ⟨c0, hmem, hbad⟩]

lemma coerceRows_bad {rows : List (List Cell)} (h : ∃ r ∈ rows, coerceRow r = .error .typeError) :
    coerceRows rows = .error .typeError := by
  induction rows with
  | nil => simp at h
  | cons r rs ih =>
    obtain ⟨r0, hr0, hbad⟩ := h
    rw [coerceRows]
    rcases List.mem_cons.mp hr0 with rfl | hmem
    · rw [hbad]
    · rcases hf : coerceRow r with e2 | v
      · have he := coerceRow_error hf
        subst he
        rfl
      · rw [ih ⟨r0, hmem, hbad⟩]

lemma char_toNat_inj {c d : Char} (h : c.toNat = d.toNat) : c = d := by
  have hm : StrictMono Char.toNat := fun a b hab => hab
  exact hm.injective h

lemma lexLt_irrefl (l : List Char) : lexLt l l = false := by
  induction l with
  | nil => rfl
  | cons a as ih => simp [lexLt, ih]

lemma lexLt_trans {a b c : List Char} (h1 : lexLt a b = true) (h2 : lexLt b c = true) :
    lexLt a c = true := by
  induction a generalizing b c with
  | nil =>
    cases b with
    | nil => simp [lexLt] at h1
    | cons bh bt =>
      cases c with
      | nil => simp [lexLt] at h2
      | cons ch ct => rfl
  | cons ah as2 ih =>
    cases b with
    | nil => simp [lexLt] at h1
    | cons bh bt =>
      cases c with
      | nil => simp [lexLt] at h2
      | cons ch ct =>
        rw [lexLt] at h1 h2 ⊢
        rcases Nat.lt_trichotomy ah.toNat bh.toNat with hab | hab | hab
        · rcases Nat.lt_trichotomy bh.toNat ch.toNat with hbc | hbc | hbc
          · rw [if_pos (by omega)]
          · rw [if_pos (by omega)]
          · rw [if_neg (by omega), if_pos (by omega)] at h2
            exact absurd h2 (by simp)
        · rw [if_neg (by omega), if_neg (by omega)] at h1
          rcases Nat.lt_trichotomy bh.toNat ch.toNat with hbc | hbc | hbc
          · rw [if_pos (by omega)]
          · rw [if_neg (by omega), if_neg (by omega)] at h2
            rw [if_neg (by omega), if_neg (by omega)]
            exact ih h1 h2
          · rw [if_neg (by omega), if_pos (by omega)] at h2
            exact absurd h2 (by simp)
        · rw [if_neg (by omega), if_pos (by omega)] at h1
          exact absurd h1 (by simp)

lemma lexLt_total {a b : List Char} (h : lexLt a b = false) (hne : a ≠ b) :
    lexLt b a = true := by
  induction a generalizing b with
  | nil =>
    cases b with
    | nil => exact absurd rfl hne
    | cons bh bt => simp [lexLt] at h
  | cons ah as2 ih =>
    cases b with
    | nil => rfl
    | cons bh bt =>
      rw [lexLt] at h ⊢
      rcases Nat.lt_trichotomy ah.toNat bh.toNat with hab | hab | hab
      · rw [if_pos hab] at h
        exact absurd h (by simp)
      · have heq : ah = bh := char_toNat_inj hab
        subst heq
        rw [if_neg (by omega), if_neg (by omega)] at h
        rw [if_neg (by omega), if_neg (by omega)]
        apply ih h
        intro hcon
        exact hne (by rw [hcon])
      · rw [if_pos (by omega)]

lemma strLt_trans {a b c : String} (h1 : strLt a b = true) (h2 : strLt b c = true) :
    strLt a c = true := lexLt_trans h1 h2

lemma strLt_total {a b : String} (h : strLt a b = false) (hne : a ≠ b) :
    strLt b a = true :=
  lexLt_total h (fun hc => hne (String.ext hc))

lemma strLt_ne {a b : String} (h : strLt a b = true) : a ≠ b := by
  intro hcon
  subst hcon
  rw [strLt, lexLt_irrefl] at h
  exact absurd h (by simp)

lemma insertCat_pairwise {s : String} {l : List String}
    (h : l.Pairwise (fun a b => strLt a b = true)) :
    (insertCat s l).Pairwise (fun a b => strLt a b = true) := by
  induction l with
  | nil => simp [insertCat]
  | cons t ts ih =>
    rw [List.pairwise_cons] at h
    obtain ⟨ht, hts⟩ := h
    rw [insertCat]
    split
    · rename_i hlt
      rw [List.pairwise_cons]
      refine ⟨?_, ?_⟩
      · intro x hx
        rcases List.mem_cons.mp hx with rfl | hx2
        · exact hlt
        · exact strLt_trans hlt (ht x hx2)
      · rw [List.pairwise_cons]
        exact ⟨ht, hts⟩
    · split
      · rw [List.pairwise_cons]
        exact ⟨ht, hts⟩
      · rename_i hnlt hne
        rw [List.pairwise_cons]
        refine ⟨?_, ih hts⟩
        intro x hx
        rcases insertCat_mem.mp hx with rfl | hx2
        · rw [Bool.not_eq_true] at hnlt
          exact strLt_total hnlt (fun hc => hne hc)
        · exact ht x hx2

lemma catOf_pairwise (cells : List Cell) :
    (catOf cells).Pairwise (fun a b => strLt a b = true) := by
  induction cells with
  | nil => simp [catOf]
  | cons c cs ih =>
    cases c with
    | missing => rw [catOf_cons_missing]; exact ih
    | str t => rw [catOf_cons_str]; exact insertCat_pairwise ih

lemma getD_map_lt {α β : Type} (f : α → β) (l : List α) {i : Nat} (h : i < l.length) (d : β) (d2 : α) :
    (l.map f).getD i d = f (l.getD i d2) := by
  rw [List.getD_eq_getElem (l.map f) d (by simpa using h), List.getElem_map,
    List.getD_eq_getElem l d2 h]

end WBC

namespace WBC

lemma drop_two_eq {α : Type} (l : List α) : l.drop 2 = l.tail.tail := by
  rcases l with _ | ⟨a, _ | ⟨b, l⟩⟩ <;> rfl

lemma drop_three_eq {α : Type} (l : List α) : l.drop 3 = l.tail.tail.tail := by
  rcases l with _ | ⟨a, _ | ⟨b, _ | ⟨c, l⟩⟩⟩ <;> rfl

lemma diagWF_unpack {raw : List (List String)} (h : diagWF raw = true) :
    (∀ r ∈ raw, r.length = 32) ∧
    (∀ r ∈ raw, ∀ s ∈ r.drop 2, isNumericStr s = true) ∧
    (diagCats raw).length = 2 := by
  simp only [diagWF, Bool.and_eq_true, List.all_eq_true, beq_iff_eq] at h
  tauto

lemma diag_read_ok (raw : List (List String)) (hlen : ∀ r ∈ raw, r.length = 32) :
    read_csv [] (["ID", "diagnosis"] ++ image_features) raw = .ok
      { index := raw.map (fun r => r.headD "")
      , columns := "diagnosis" :: image_features
      , rows := raw.map (fun r => r.tail.map Cell.str) } := by
  have hall : raw.all (fun r => r.length == (["ID", "diagnosis"] ++ image_features).length) = true := by
    rw [List.all_eq_true]
    intro r hr
    have h32 : r.length = 32 := hlen r hr
    simp [h32]
    rfl
  have hnaf : naCell [] = Cell.str := by
    funext s
    simp [naCell]
  unfold read_csv
  simp only [hall, if_true]
  rw [hnaf]
  rfl

lemma diag_read_err (raw : List (List String)) (hbad : ∃ r ∈ raw, r.length ≠ 32) :
    read_csv [] (["ID", "diagnosis"] ++ image_features) raw = .error .parserError := by
  have hall : raw.all (fun r => r.length == (["ID", "diagnosis"] ++ image_features).length) = false := by
    rw [Bool.eq_false_iff, Ne, List.all_eq_true]
    intro hcon
    obtain ⟨r, hr, hne⟩ := hbad
    have := hcon r hr
    rw [beq_iff_eq] at this
    exact hne (by rw [this]; rfl)
  unfold read_csv
  simp only [hall, Bool.false_eq_true, if_false]

lemma diag_col_eq (raw : List (List String)) (hlen : ∀ r ∈ raw, r.length = 32) :
    DataFrame.col
      { index := raw.map (fun r => r.headD "")
      , columns := "diagnosis" :: image_features
      , rows := raw.map (fun r => r.tail.map Cell.str) } "diagnosis"
      = raw.map (fun r => Cell.str (r.getD 1 "")) := by
  unfold DataFrame.col
  simp only [idxOf, if_pos rfl]
  rw [List.map_map]
  apply List.map_congr_left
  intro r hr
  obtain ⟨a, b, rest, hab⟩ := exists_cons2 (by rw [hlen r hr]; norm_num)
  subst hab
  rfl

lemma diag_rename_ok (raw : List (List String)) (hcats : (diagCats raw).length = 2) :
    rename_categories (raw.map (fun r => Cell.str (r.getD 1 ""))) ["benign", "malignant"] =
      .ok (diagY raw).values := by
  unfold rename_categories
  rw [if_pos (by simpa [diagCats] using hcats)]
  congr 1
  rw [List.map_map]
  apply List.map_congr_left
  intro r hr
  simp [diagY, diagCats]

lemma diag_rename_err (raw : List (List String)) (hcats : (diagCats raw).length ≠ 2) :
    rename_categories (raw.map (fun r => Cell.str (r.getD 1 ""))) ["benign", "malignant"] =
      .error .valueError := by
  unfold rename_categories
  rw [if_neg (by simpa [diagCats] using hcats)]

lemma diag_dropRows (raw : List (List String)) (hlen : ∀ r ∈ raw, r.length = 32) :
    (raw.map (fun r => r.tail.map Cell.str)).map
        (dropRow ["diagnosis"] ("diagnosis" :: image_features)) =
      raw.map (fun r => r.tail.tail.map Cell.str) := by
  have hkeep : ∀ c ∈ image_features, c ∉ (["diagnosis"] : List String) := by decide
  rw [List.map_map]
  apply List.map_congr_left
  intro r hr
  obtain ⟨a, b, rest, hab⟩ := exists_cons2 (by rw [hlen r hr]; norm_num)
  subst hab
  have hr30 : rest.length = 30 := by
    have := hlen _ hr
    simpa using this
  show dropRow ["diagnosis"] ("diagnosis" :: image_features) (Cell.str b :: rest.map Cell.str)
    = rest.map Cell.str
  simp only [dropRow, List.zip_cons_cons, List.filterMap_cons]
  rw [if_pos (by simp)]
  have := dropRow_keep ["diagnosis"] image_features (rest.map Cell.str) hkeep
  simp only [dropRow] at this
  rw [this]
  apply List.take_of_length_le
  simp [hr30]
  decide

theorem diag_load_eq (raw : List (List String)) (h : diagWF raw = true) :
    load_wisconsin_breast_cancer_diagnosis raw = .ok (diagX raw, diagY raw) := by
  obtain ⟨hlen, hnum, hcats⟩ := diagWF_unpack h
  have h1 := diag_read_ok raw hlen
  have h2 := diag_col_eq raw hlen
  have h3 := diag_rename_ok raw hcats
  have h4 : DataFrame.astypeFloat (DataFrame.drop
      { index := raw.map (fun r => r.headD "")
      , columns := "diagnosis" :: image_features
      , rows := raw.map (fun r => r.tail.map Cell.str) } ["diagnosis"]) = .ok (diagX raw) := by
    unfold DataFrame.drop
    simp only [diag_dropRows raw hlen]
    unfold DataFrame.astypeFloat
    have hco : coerceRows (raw.map (fun r => r.tail.tail.map Cell.str)) =
        .ok (raw.map (fun r => r.tail.tail.map (fun s => NumCell.num s))) := by
      apply coerceRows_map
      intro r hr
      apply coerceRow_str
      intro s hs
      apply hnum r hr
      obtain ⟨a, b, rest, hab⟩ := exists_cons2 (by rw [hlen r hr]; norm_num)
      subst hab
      simpa using hs
    simp only [hco]
    rfl
  unfold load_wisconsin_breast_cancer_diagnosis
  simp only [h1]
  simp only [h2, h3, h4]
  rfl

lemma diag_load_parserError (raw : List (List String)) (hbad : ∃ r ∈ raw, r.length ≠ 32) :
    load_wisconsin_breast_cancer_diagnosis raw = .error .parserError := by
  unfold load_wisconsin_breast_cancer_diagnosis
  simp only [diag_read_err raw hbad]

lemma diag_load_valueError (raw : List (List String))
    (hlen : ∀ r ∈ raw, r.length = 32) (hcats : (diagCats raw).length ≠ 2) :
    load_wisconsin_breast_cancer_diagnosis raw = .error .valueError := by
  unfold load_wisconsin_breast_cancer_diagnosis
  simp only [diag_read_ok raw hlen]
  simp only [diag_col_eq raw hlen, diag_rename_err raw hcats]

lemma diag_load_typeError (raw : List (List String))
    (hlen : ∀ r ∈ raw, r.length = 32)
    (hcats : (diagCats raw).length = 2)
    (hbad : ∃ r ∈ raw, ∃ s ∈ r.drop 2, isNumericStr s = false) :
    load_wisconsin_breast_cancer_diagnosis raw = .error .typeError := by
  have h4 : DataFrame.astypeFloat (DataFrame.drop
      { index := raw.map (fun r => r.headD "")
      , columns := "diagnosis" :: image_features
      , rows := raw.map (fun r => r.tail.map Cell.str) } ["diagnosis"]) = .error .typeError := by
    unfold DataFrame.drop
    simp only [diag_dropRows raw hlen]
    unfold DataFrame.astypeFloat
    obtain ⟨r, hr, s, hs, hn⟩ := hbad
    rw [drop_two_eq] at hs
    have hbadrow : coerceRow (r.tail.tail.map Cell.str) = .error .typeError := by
      apply coerceRow_bad
      refine ⟨Cell.str s, List.mem_map.mpr ⟨s, hs, rfl⟩, ?_⟩
      simp [cellToFloat, hn]
    rw [coerceRows_bad ⟨r.tail.tail.map Cell.str,
      List.mem_map.mpr ⟨r, hr, rfl⟩, hbadrow⟩]
  unfold load_wisconsin_breast_cancer_diagnosis
  simp only [diag_read_ok raw hlen]
  simp only [diag_col_eq raw hlen, diag_rename_ok raw hcats, h4]

end WBC

namespace WBC

lemma progWF_unpack {raw : List (List String)} (h : progWF raw = true) :
    (∀ r ∈ raw, r.length = 35) ∧
    (∀ r ∈ raw, ∀ s ∈ r.drop 3, isNumericStr s = true ∨ s = "?") ∧
    (progCats raw).length = 2 := by
  simp only [progWF, Bool.and_eq_true, List.all_eq_true, beq_iff_eq, Bool.or_eq_true] at h
  tauto

lemma prog_read_ok (raw : List (List String)) (hlen : ∀ r ∈ raw, r.length = 35) :
    read_csv ["?"] (["ID", "outcome", "time"] ++ (image_features ++ ["tumor_size", "lymph_node_status"])) raw = .ok
      { index := raw.map (fun r => r.headD "")
      , columns := "outcome" :: "time" :: (image_features ++ ["tumor_size", "lymph_node_status"])
      , rows := raw.map (fun r => r.tail.map (naCell ["?"])) } := by
  have hall : raw.all (fun r => r.length == (["ID", "outcome", "time"] ++ (image_features ++ ["tumor_size", "lymph_node_status"])).length) = true := by
    rw [List.all_eq_true]
    intro r hr
    have h35 : r.length = 35 := hlen r hr
    simp [h35]
    rfl
  unfold read_csv
  simp only [hall, if_true]
  rfl

lemma prog_read_err (raw : List (List String)) (hbad : ∃ r ∈ raw, r.length ≠ 35) :
    read_csv ["?"] (["ID", "outcome", "time"] ++ (image_features ++ ["tumor_size", "lymph_node_status"])) raw = .error .parserError := by
  have hall : raw.all (fun r => r.length == (["ID", "outcome", "time"] ++ (image_features ++ ["tumor_size", "lymph_node_status"])).length) = false := by
    rw [Bool.eq_false_iff, Ne, List.all_eq_true]
    intro hcon
    obtain ⟨r, hr, hne⟩ := hbad
    have := hcon r hr
    rw [beq_iff_eq] at this
    exact hne (by rw [this]; rfl)
  unfold read_csv
  simp only [hall, Bool.false_eq_true, if_false]

lemma prog_select_eq (raw : List (List String)) (hlen : ∀ r ∈ raw, r.length = 35) :
    DataFrame.select
      { index := raw.map (fun r => r.headD "")
      , columns := "outcome" :: "time" :: (image_features ++ ["tumor_size", "lymph_node_status"])
      , rows := raw.map (fun r => r.tail.map (naCell ["?"])) } ["outcome", "time"]
      = { index := raw.map (fun r => r.headD "")
        , columns := ["outcome", "time"]
        , rows := raw.map (fun r => [naCell ["?"] (r.getD 1 ""), naCell ["?"] (r.getD 2 "")]) } := by
  unfold DataFrame.select
  simp only [idxOf, if_pos rfl]
  congr 1
  rw [List.map_map]
  apply List.map_congr_left
  intro r hr
  obtain ⟨a, b, c, rest, habc⟩ := exists_cons3 (by rw [hlen r hr]; norm_num)
  subst habc
  simp [idxOf]

lemma prog_col_eq (raw : List (List String)) :
    DataFrame.col
      { index := raw.map (fun r => r.headD "")
      , columns := ["outcome", "time"]
      , rows := raw.map (fun r => [naCell ["?"] (r.getD 1 ""), naCell ["?"] (r.getD 2 "")]) } "outcome"
      = raw.map (fun r => naCell ["?"] (r.getD 1 "")) := by
  unfold DataFrame.col
  simp only [idxOf, if_pos rfl]
  rw [List.map_map]
  rfl

lemma prog_rename_ok (raw : List (List String)) (hcats : (progCats raw).length = 2) :
    rename_categories (raw.map (fun r => naCell ["?"] (r.getD 1 ""))) ["nonrecurring", "recurring"] =
      .ok (raw.map (fun r => progOutcomeCell raw r)) := by
  unfold rename_categories
  rw [if_pos (by simpa [progCats] using hcats)]
  congr 1
  rw [List.map_map]
  apply List.map_congr_left
  intro r hr
  simp only [Function.comp]
  rw [progOutcomeCell]
  rcases hq : naCell ["?"] (r.getD 1 "") with s | _
  · simp [progCats]
  · simp

lemma prog_rename_err (raw : List (List String)) (hcats : (progCats raw).length ≠ 2) :
    rename_categories (raw.map (fun r => naCell ["?"] (r.getD 1 ""))) ["nonrecurring", "recurring"] =
      .error .valueError := by
  unfold rename_categories
  rw [if_neg (by simpa [progCats] using hcats)]

lemma prog_dropRows (raw : List (List String)) (hlen : ∀ r ∈ raw, r.length = 35) :
    (raw.map (fun r => r.tail.map (naCell ["?"]))).map
        (dropRow ["outcome", "time"] ("outcome" :: "time" :: (image_features ++ ["tumor_size", "lymph_node_status"]))) =
      raw.map (fun r => r.tail.tail.tail.map (naCell ["?"])) := by
  have hkeep : ∀ c ∈ image_features ++ ["tumor_size", "lymph_node_status"],
      c ∉ (["outcome", "time"] : List String) := by decide
  rw [List.map_map]
  apply List.map_congr_left
  intro r hr
  obtain ⟨a, b, c, rest, habc⟩ := exists_cons3 (by rw [hlen r hr]; norm_num)
  subst habc
  have hr32 : rest.length = 32 := by
    have := hlen _ hr
    simpa using this
  show dropRow ["outcome", "time"] ("outcome" :: "time" :: (image_features ++ ["tumor_size", "lymph_node_status"]))
      (naCell ["?"] b :: naCell ["?"] c :: rest.map (naCell ["?"])) = rest.map (naCell ["?"])
  simp only [dropRow, List.zip_cons_cons, List.filterMap_cons]
  rw [if_pos (by simp), if_pos (by simp)]
  have := dropRow_keep ["outcome", "time"] (image_features ++ ["tumor_size", "lymph_node_status"])
    (rest.map (naCell ["?"])) hkeep
  simp only [dropRow] at this
  rw [this]
  apply List.take_of_length_le
  simp [hr32]
  rfl

theorem prog_load_eq (raw : List (List String)) (h : progWF raw = true) :
    load_wisconsin_breast_cancer_prognosis raw = .ok (progX raw, progY raw) := by
  obtain ⟨hlen, hnum, hcats⟩ := progWF_unpack h
  have h1 := prog_read_ok raw hlen
  have h2 := prog_select_eq raw hlen
  have h3 := prog_col_eq raw
  have h4 := prog_rename_ok raw hcats
  have h5 : DataFrame.astypeFloat (DataFrame.drop
      { index := raw.map (fun r => r.headD "")
      , columns := "outcome" :: "time" :: (image_features ++ ["tumor_size", "lymph_node_status"])
      , rows := raw.map (fun r => r.tail.map (naCell ["?"])) } ["outcome", "time"]) = .ok (progX raw) := by
    unfold DataFrame.drop
    simp only [prog_dropRows raw hlen]
    unfold DataFrame.astypeFloat
    have hco : coerceRows (raw.map (fun r => r.tail.tail.tail.map (naCell ["?"]))) =
        .ok (raw.map (fun r => r.tail.tail.tail.map (numOfNa ["?"]))) := by
      apply coerceRows_map
      intro r hr
      apply coerceRow_na
      intro s hs
      rcases hnum _ hr s (by rw [drop_three_eq]; exact hs) with hn | hn
      · right
        exact hn
      · left
        simp [hn]
    simp only [hco]
    rfl
  have h6 : DataFrame.setCol
      { index := raw.map (fun r => r.headD "")
      , columns := ["outcome", "time"]
      , rows := raw.map (fun r => [naCell ["?"] (r.getD 1 ""), naCell ["?"] (r.getD 2 "")]) } "outcome"
      (raw.map (fun r => progOutcomeCell raw r)) = progY raw := by
    unfold DataFrame.setCol
    simp only [idxOf, if_pos rfl]
    rw [List.zip_map']
    rw [List.map_map]
    rfl
  unfold load_wisconsin_breast_cancer_prognosis
  simp only [h1]
  simp only [h2]
  simp only [h3, h4]
  simp only [h5, h6]

lemma prog_load_parserError (raw : List (List String)) (hbad : ∃ r ∈ raw, r.length ≠ 35) :
    load_wisconsin_breast_cancer_prognosis raw = .error .parserError := by
  unfold load_wisconsin_breast_cancer_prognosis
  simp only [prog_read_err raw hbad]

lemma prog_load_valueError (raw : List (List String))
    (hlen : ∀ r ∈ raw, r.length = 35) (hcats : (progCats raw).length ≠ 2) :
    load_wisconsin_breast_cancer_prognosis raw = .error .valueError := by
  unfold load_wisconsin_breast_cancer_prognosis
  simp only [prog_read_ok raw hlen]
  simp only [prog_select_eq raw hlen]
  simp only [prog_col_eq raw, prog_rename_err raw hcats]

lemma prog_load_typeError (raw : List (List String))
    (hlen : ∀ r ∈ raw, r.length = 35)
    (hcats : (progCats raw).length = 2)
    (hbad : ∃ r ∈ raw, ∃ s ∈ r.drop 3, isNumericStr s = false ∧ s ≠ "?") :
    load_wisconsin_breast_cancer_prognosis raw = .error .typeError := by
  have h5 : DataFrame.astypeFloat (DataFrame.drop
      { index := raw.map (fun r => r.headD "")
      , columns := "outcome" :: "time" :: (image_features ++ ["tumor_size", "lymph_node_status"])
      , rows := raw.map (fun r => r.tail.map (naCell ["?"])) } ["outcome", "time"]) = .error .typeError := by
    unfold DataFrame.drop
    simp only [prog_dropRows raw hlen]
    unfold DataFrame.astypeFloat
    obtain ⟨r, hr, s, hs, hn, hq⟩ := hbad
    rw [drop_three_eq] at hs
    have hbadrow : coerceRow (r.tail.tail.tail.map (naCell ["?"])) = .error .typeError := by
      apply coerceRow_bad
      refine ⟨naCell ["?"] s, List.mem_map.mpr ⟨s, hs, rfl⟩, ?_⟩
      simp [naCell, hq, cellToFloat, hn]
    rw [coerceRows_bad ⟨r.tail.tail.tail.map (naCell ["?"]),
      List.mem_map.mpr ⟨r, hr, rfl⟩, hbadrow⟩]
  unfold load_wisconsin_breast_cancer_prognosis
  simp only [prog_read_ok raw hlen]
  simp only [prog_select_eq raw hlen]
  simp only [prog_col_eq raw, prog_rename_ok raw hcats, h5]

end WBC


namespace WBC

/-- Thirty synthetic numeric feature fields. -/
def sampleFeats : List String := List.replicate 30 "0.5"

/-- One synthetic diagnosis row. -/
def diagRowMk (id code : String) : List String := [id, code] ++ sampleFeats

/-- A five-row synthetic diagnosis file: three rows carry the raw code B
and two the raw code M. -/
def diagFile5 : List (List String) :=
  [diagRowMk "101" "B", diagRowMk "102" "M", diagRowMk "103" "B",
   diagRowMk "104" "B", diagRowMk "105" "M"]

/-- One synthetic prognosis row. -/
def progRowMk (id code t ts ln : String) : List String :=
  [id, code, t] ++ sampleFeats ++ [ts, ln]

/-- A two-row synthetic prognosis file with the missing token in the
lymph_node_status field of the first row. -/
def progFile2 : List (List String) :=
  [progRowMk "1" "N" "10" "2.0" "?", progRowMk "2" "R" "20" "3.0" "4"]

/-- A diagnosis file with duplicate identifiers. -/
def diagFileDup : List (List String) := [diagRowMk "7" "B", diagRowMk "7" "M"]

/-- A prognosis file with duplicate identifiers. -/
def progFileDup : List (List String) :=
  [progRowMk "7" "N" "1" "2.0" "3", progRowMk "7" "R" "2" "2.0" "3"]

/-- Claim C5: image_features is deterministic (a pure constant of the
embedding, so every call returns the identical list) and order-preserving:
it is exactly the 30 names obtained by prefixing the 10 base measurement
names with mean_, then se_, then worst_, and for the base name radius the
derived names mean_radius, se_radius and worst_radius appear in that
relative order at positions 0, 10 and 20 - the same position within each
group. -/
theorem claim_C5 :
    image_features =
      ["mean_radius", "mean_texture", "mean_perimeter", "mean_area", "mean_smoothness",
       "mean_compactness", "mean_concavity", "mean_concave points", "mean_symmetry",
       "mean_fractal dimension",
       "se_radius", "se_texture", "se_perimeter", "se_area", "se_smoothness",
       "se_compactness", "se_concavity", "se_concave points", "se_symmetry",
       "se_fractal dimension",
       "worst_radius", "worst_texture", "worst_perimeter", "worst_area", "worst_smoothness",
       "worst_compactness", "worst_concavity", "worst_concave points", "worst_symmetry",
       "worst_fractal dimension"] ∧
    image_features.length = 30 ∧
    idxOf "mean_radius" image_features = 0 ∧
    idxOf "se_radius" image_features = 10 ∧
    idxOf "worst_radius" image_features = 20 := by
  refine ⟨?_, ?_, ?_, ?_, ?_⟩ <;> decide

/-- Claim C1: for every well-formed diagnosis file with N rows the loader
returns a feature table with exactly N rows and 30 columns whose cells are
all numeric, and a label series with exactly N entries, each benign or
malignant; the five-row synthetic file with three benign-coded rows and
two malignant-coded rows yields three benign labels, two malignant labels
and a features table of shape five by thirty. -/
theorem claim_C1 :
    (∀ raw : List (List String), diagWF raw = true →
      ∃ X y, load_wisconsin_breast_cancer_diagnosis raw = .ok (X, y) ∧
        X.rows.length = raw.length ∧
        X.columns.length = 30 ∧
        (∀ row ∈ X.rows, row.length = 30) ∧
        (∀ row ∈ X.rows, ∀ cell ∈ row, ∃ s, cell = NumCell.num s) ∧
        y.values.length = raw.length ∧
        (∀ v ∈ y.values, v = Cell.str "benign" ∨ v = Cell.str "malignant")) ∧
    (∃ X y, load_wisconsin_breast_cancer_diagnosis diagFile5 = .ok (X, y) ∧
      X.rows.length = 5 ∧ X.columns.length = 30 ∧
      y.values.count (Cell.str "benign") = 3 ∧
      y.values.count (Cell.str "malignant") = 2) := by
  constructor
  · intro raw hwf
    obtain ⟨hlen, hnum, hcats⟩ := diagWF_unpack hwf
    refine ⟨diagX raw, diagY raw, diag_load_eq raw hwf, ?_, ?_, ?_, ?_, ?_, ?_⟩
    · simp [diagX]
    · rfl
    · intro row hrow
      simp only [diagX, List.mem_map] at hrow
      obtain ⟨r, hr, rfl⟩ := hrow
      have h32 := hlen r hr
      simp [List.length_tail, h32]
    · intro row hrow cell hcell
      simp only [diagX, List.mem_map] at hrow
      obtain ⟨r, hr, rfl⟩ := hrow
      simp only [List.mem_map] at hcell
      obtain ⟨s, hs, rfl⟩ := hcell
      exact ⟨s, rfl⟩
    · simp [diagY]
    · intro v hv
      simp only [diagY, List.mem_map] at hv
      obtain ⟨r, hr, rfl⟩ := hv
      have hmem : (r.getD 1 "") ∈ diagCats raw := by
        rw [diagCats]
        exact mem_catOf (List.mem_map.mpr ⟨r, hr, rfl⟩)
      have hlt : idxOf (r.getD 1 "") (diagCats raw) < 2 := by
        have := idxOf_lt_length hmem
        rw [hcats] at this
        exact this
      rcases getD_pair hlt "benign" "malignant" (r.getD 1 "") with hg | hg
      · left
        rw [hg]
      · right
        rw [hg]
  · refine ⟨diagX diagFile5, diagY diagFile5, diag_load_eq diagFile5 (by decide), ?_, ?_, ?_, ?_⟩ <;> decide

/-- Witness for claim C1 at the five-row synthetic file. -/
theorem claim_C1_witness :
    diagWF diagFile5 = true ∧
    (∃ X y, load_wisconsin_breast_cancer_diagnosis diagFile5 = .ok (X, y) ∧
      X.rows.length = diagFile5.length ∧
      X.columns.length = 30 ∧
      (∀ row ∈ X.rows, row.length = 30) ∧
      (∀ row ∈ X.rows, ∀ cell ∈ row, ∃ s, cell = NumCell.num s) ∧
      y.values.length = diagFile5.length ∧
      (∀ v ∈ y.values, v = Cell.str "benign" ∨ v = Cell.str "malignant")) :=
  ⟨by decide, claim_C1.1 diagFile5 (by decide)⟩

/-- Claim C6: for every successfully loaded file of either variant the
row index of the features table and of the labels output are identical
sequences, equal to the identifier column of the source file in file
order, and both outputs have as many rows as the source file. -/
theorem claim_C6 :
    (∀ raw : List (List String), diagWF raw = true →
      ∃ X y, load_wisconsin_breast_cancer_diagnosis raw = .ok (X, y) ∧
        X.index = raw.map (fun r => r.headD "") ∧
        y.index = X.index ∧
        X.rows.length = raw.length ∧
        y.values.length = raw.length) ∧
    (∀ raw : List (List String), progWF raw = true →
      ∃ X y, load_wisconsin_breast_cancer_prognosis raw = .ok (X, y) ∧
        X.index = raw.map (fun r => r.headD "") ∧
        y.index = X.index ∧
        X.rows.length = raw.length ∧
        y.rows.length = raw.length) := by
  constructor
  · intro raw hwf
    exact ⟨diagX raw, diagY raw, diag_load_eq raw hwf, rfl, rfl,
      by simp [diagX], by simp [diagY]⟩
  · intro raw hwf
    exact ⟨progX raw, progY raw, prog_load_eq raw hwf, rfl, rfl,
      by simp [progX], by simp [progY]⟩

/-- Witness for claim C6 at the synthetic diagnosis and prognosis files. -/
theorem claim_C6_witness :
    diagWF diagFile5 = true ∧ progWF progFile2 = true ∧
    (∃ X y, load_wisconsin_breast_cancer_diagnosis diagFile5 = .ok (X, y) ∧
      X.index = diagFile5.map (fun r => r.headD "") ∧
      y.index = X.index ∧
      X.rows.length = diagFile5.length ∧
      y.values.length = diagFile5.length) ∧
    (∃ X y, load_wisconsin_breast_cancer_prognosis progFile2 = .ok (X, y) ∧
      X.index = progFile2.map (fun r => r.headD "") ∧
      y.index = X.index ∧
      X.rows.length = progFile2.length ∧
      y.rows.length = progFile2.length) :=
  ⟨by decide, by decide, claim_C6.1 diagFile5 (by decide), claim_C6.2 progFile2 (by decide)⟩

/-- Claim C9: both loaders are deterministic and free of side effects
beyond reading the given file: in the embedding a load is a pure function
of the contents the file system assigns to the path, so two runs over
file systems that agree on the read path return equal results, and the
loader has no way to create or modify any state (its type returns only
the two tables or an error). -/
theorem claim_C9 :
    ∀ (fs1 fs2 : FileSys) (p1 p2 : String), fs1 p1 = fs2 p2 →
      runLoadDiagnosis fs1 p1 = runLoadDiagnosis fs2 p2 ∧
      runLoadPrognosis fs1 p1 = runLoadPrognosis fs2 p2 := by
  intro fs1 fs2 p1 p2 h
  unfold runLoadDiagnosis runLoadPrognosis
  rw [h]
  exact ⟨rfl, rfl⟩

/-- Witness for claim C9: two runs over the same stored file agree. -/
theorem claim_C9_witness :
    ((fun _ => some diagFile5) : FileSys) "datasets/wdbc.data" = ((fun _ => some diagFile5) : FileSys) "copy.data" ∧
    (runLoadDiagnosis (fun _ => some diagFile5) "datasets/wdbc.data" =
      runLoadDiagnosis (fun _ => some diagFile5) "copy.data" ∧
     runLoadPrognosis (fun _ => some diagFile5) "datasets/wdbc.data" =
      runLoadPrognosis (fun _ => some diagFile5) "copy.data") :=
  ⟨rfl, claim_C9 (fun _ => some diagFile5) (fun _ => some diagFile5) "datasets/wdbc.data" "copy.data" rfl⟩

/-- Claim C10: identifier uniqueness is not enforced: a well-formed file
whose identifier column holds duplicate values still loads successfully,
and the shared row index of the outputs carries the duplicates. -/
theorem claim_C10 :
    (∀ raw : List (List String), diagWF raw = true →
      ¬ (raw.map (fun r => r.headD "")).Nodup →
      ∃ X y, load_wisconsin_breast_cancer_diagnosis raw = .ok (X, y) ∧
        X.index = raw.map (fun r => r.headD "") ∧
        y.index = X.index ∧
        ¬ X.index.Nodup) ∧
    (∀ raw : List (List String), progWF raw = true →
      ¬ (raw.map (fun r => r.headD "")).Nodup →
      ∃ X y, load_wisconsin_breast_cancer_prognosis raw = .ok (X, y) ∧
        X.index = raw.map (fun r => r.headD "") ∧
        y.index = X.index ∧
        ¬ X.index.Nodup) := by
  constructor
  · intro raw hwf hdup
    exact ⟨diagX raw, diagY raw, diag_load_eq raw hwf, rfl, rfl, hdup⟩
  · intro raw hwf hdup
    exact ⟨progX raw, progY raw, prog_load_eq raw hwf, rfl, rfl, hdup⟩

/-- Witness for claim C10 at files with duplicate identifiers. -/
theorem claim_C10_witness :
    diagWF diagFileDup = true ∧
    ¬ (diagFileDup.map (fun r => r.headD "")).Nodup ∧
    progWF progFileDup = true ∧
    ¬ (progFileDup.map (fun r => r.headD "")).Nodup ∧
    (∃ X y, load_wisconsin_breast_cancer_diagnosis diagFileDup = .ok (X, y) ∧
      X.index = diagFileDup.map (fun r => r.headD "") ∧
      y.index = X.index ∧ ¬ X.index.Nodup) ∧
    (∃ X y, load_wisconsin_breast_cancer_prognosis progFileDup = .ok (X, y) ∧
      X.index = progFileDup.map (fun r => r.headD "") ∧
      y.index = X.index ∧ ¬ X.index.Nodup) :=
  ⟨by decide, by decide, by decide, by decide,
   claim_C10.1 diagFileDup (by decide) (by decide),
   claim_C10.2 progFileDup (by decide) (by decide)⟩

end WBC

namespace WBC

lemma catOf_src {a : String} {cells : List Cell} (h : a ∈ catOf cells) :
    Cell.str a ∈ cells := by
  induction cells with
  | nil => simp [catOf] at h
  | cons c cs ih =>
    cases c with
    | missing =>
      rw [catOf_cons_missing] at h
      exact List.mem_cons_of_mem _ (ih h)
    | str t =>
      rw [catOf_cons_str, insertCat_mem] at h
      rcases h with rfl | h2
      · exact List.mem_cons_self _ _
      · exact List.mem_cons_of_mem _ (ih h2)

/-- Claim C2: every well-formed prognosis file with M rows loads into a
feature table with M rows and exactly the 32 columns given by the 30
image features plus tumor_size and lymph_node_status, and every row whose
lymph_node_status field (field 34 of the source row, position 31 of the
features) holds the sentinel token yields the explicit missing marker in
that cell - not a parse error and not the literal sentinel string. -/
theorem claim_C2 :
    ∀ raw : List (List String), progWF raw = true →
      ∃ X y, load_wisconsin_breast_cancer_prognosis raw = .ok (X, y) ∧
        X.columns = image_features ++ ["tumor_size", "lymph_node_status"] ∧
        X.columns.length = 32 ∧
        X.rows.length = raw.length ∧
        (∀ i, i < raw.length →
          ((raw.getD i []).drop 3).getD 31 "" = "?" →
          (X.rows.getD i []).getD 31 (NumCell.num "") = NumCell.missing ∧
          (X.rows.getD i []).getD 31 (NumCell.num "") ≠ NumCell.num "?") := by
  intro raw hwf
  obtain ⟨hlen, hnum, hcats⟩ := progWF_unpack hwf
  refine ⟨progX raw, progY raw, prog_load_eq raw hwf, rfl, rfl, by simp [progX], ?_⟩
  intro i hi hq
  have hrmem : raw.getD i [] ∈ raw := by
    rw [List.getD_eq_getElem raw [] hi]
    exact List.getElem_mem hi
  have h35 := hlen _ hrmem
  have hlen3 : 31 < ((raw.getD i []).tail.tail.tail).length := by
    simp only [List.length_tail]
    omega
  have key : ((progX raw).rows.getD i []).getD 31 (NumCell.num "") = NumCell.missing := by
    have hrows : (progX raw).rows = raw.map (fun r => r.tail.tail.tail.map (numOfNa ["?"])) := rfl
    rw [hrows, getD_map_lt (fun r => r.tail.tail.tail.map (numOfNa ["?"])) raw hi [] [],
      getD_map_lt (numOfNa ["?"]) ((raw.getD i []).tail.tail.tail) hlen3 (NumCell.num "") ""]
    rw [← drop_three_eq, hq]
    simp [numOfNa]
  exact ⟨key, by rw [key]; simp⟩

end WBC

namespace WBC

/-- Witness for claim C2 at the two-row synthetic prognosis file. -/
theorem claim_C2_witness :
    progWF progFile2 = true ∧
    (∃ X y, load_wisconsin_breast_cancer_prognosis progFile2 = .ok (X, y) ∧
      X.columns = image_features ++ ["tumor_size", "lymph_node_status"] ∧
      X.columns.length = 32 ∧
      X.rows.length = progFile2.length ∧
      (∀ i, i < progFile2.length →
        ((progFile2.getD i []).drop 3).getD 31 "" = "?" →
        (X.rows.getD i []).getD 31 (NumCell.num "") = NumCell.missing ∧
        (X.rows.getD i []).getD 31 (NumCell.num "") ≠ NumCell.num "?")) :=
  ⟨by decide, claim_C2 progFile2 (by decide)⟩

/-- A diagnosis file whose label column carries an unexpected third code. -/
def diagFile3c : List (List String) :=
  [diagRowMk "1" "B", diagRowMk "2" "M", diagRowMk "3" "X"]

/-- A prognosis file whose outcome column carries an unexpected third code. -/
def progFile3c : List (List String) :=
  [progRowMk "1" "N" "10" "2.0" "3", progRowMk "2" "R" "20" "3.0" "4",
   progRowMk "3" "X" "30" "4.0" "5"]

/-- Claim C3: category relabeling is a pure positional mapping over the
sorted raw codes.  When the label column carries exactly the two raw
codes c0 and c1 with c0 sorting first, every diagnosis label becomes
benign or malignant with c0 mapped to benign and c1 to malignant, and
every prognosis outcome with c0 mapped to nonrecurring and c1 to
recurring; a file whose label column carries a third, unexpected code
makes the load fail with a value error instead of passing the raw code
through. -/
theorem claim_C3 :
    (∀ (raw : List (List String)) (c0 c1 : String), diagWF raw = true →
      diagCats raw = [c0, c1] →
      ∃ X y, load_wisconsin_breast_cancer_diagnosis raw = .ok (X, y) ∧
        strLt c0 c1 = true ∧
        (∀ i, i < raw.length →
          ((raw.getD i []).getD 1 "" = c0 →
            y.values.getD i Cell.missing = Cell.str "benign") ∧
          ((raw.getD i []).getD 1 "" = c1 →
            y.values.getD i Cell.missing = Cell.str "malignant"))) ∧
    (∀ raw : List (List String), (∀ r ∈ raw, r.length = 32) →
      (diagCats raw).length = 3 →
      load_wisconsin_breast_cancer_diagnosis raw = .error .valueError) ∧
    (∀ (raw : List (List String)) (c0 c1 : String), progWF raw = true →
      progCats raw = [c0, c1] →
      ∃ X y, load_wisconsin_breast_cancer_prognosis raw = .ok (X, y) ∧
        strLt c0 c1 = true ∧
        (∀ i, i < raw.length →
          ((raw.getD i []).getD 1 "" = c0 →
            (y.rows.getD i []).getD 0 Cell.missing = Cell.str "nonrecurring") ∧
          ((raw.getD i []).getD 1 "" = c1 →
            (y.rows.getD i []).getD 0 Cell.missing = Cell.str "recurring"))) ∧
    (∀ raw : List (List String), (∀ r ∈ raw, r.length = 35) →
      (progCats raw).length = 3 →
      load_wisconsin_breast_cancer_prognosis raw = .error .valueError) := by
  refine ⟨?_, ?_, ?_, ?_⟩
  · intro raw c0 c1 hwf hcats2
    obtain ⟨hlen, hnum, hcats⟩ := diagWF_unpack hwf
    have hsorted : strLt c0 c1 = true := by
      have hpw := catOf_pairwise (raw.map (fun r => Cell.str (r.getD 1 "")))
      rw [show catOf (raw.map (fun r => Cell.str (r.getD 1 ""))) = diagCats raw from rfl,
        hcats2, List.pairwise_cons] at hpw
      exact hpw.1 c1 (by simp)
    have hne : c0 ≠ c1 := by
      intro hcon
      subst hcon
      rw [strLt, lexLt_irrefl] at hsorted
      exact absurd hsorted (by simp)
    refine ⟨diagX raw, diagY raw, diag_load_eq raw hwf, hsorted, ?_⟩
    intro i hi
    have hval : (diagY raw).values.getD i Cell.missing =
        Cell.str (["benign", "malignant"].getD
          (idxOf ((raw.getD i []).getD 1 "") (diagCats raw)) ((raw.getD i []).getD 1 "")) := by
      have hrows : (diagY raw).values = raw.map (fun r =>
          Cell.str (["benign", "malignant"].getD (idxOf (r.getD 1 "") (diagCats raw)) (r.getD 1 ""))) := rfl
      rw [hrows, getD_map_lt _ raw hi Cell.missing []]
    constructor
    · intro hc
      rw [hval, hc, hcats2]
      simp [idxOf]
    · intro hc
      rw [hval, hc, hcats2]
      simp [idxOf, hne.symm]
  · intro raw hlen hcats3
    exact diag_load_valueError raw hlen (by omega)
  · intro raw c0 c1 hwf hcats2
    obtain ⟨hlen, hnum, hcats⟩ := progWF_unpack hwf
    have hsorted : strLt c0 c1 = true := by
      have hpw := catOf_pairwise (raw.map (fun r => naCell ["?"] (r.getD 1 "")))
      rw [show catOf (raw.map (fun r => naCell ["?"] (r.getD 1 ""))) = progCats raw from rfl,
        hcats2, List.pairwise_cons] at hpw
      exact hpw.1 c1 (by simp)
    have hne : c0 ≠ c1 := by
      intro hcon
      subst hcon
      rw [strLt, lexLt_irrefl] at hsorted
      exact absurd hsorted (by simp)
    have hc0q : c0 ≠ "?" := by
      have hc0 : Cell.str c0 ∈ raw.map (fun r => naCell ["?"] (r.getD 1 "")) := by
        apply catOf_src
        rw [show catOf (raw.map (fun r => naCell ["?"] (r.getD 1 ""))) = progCats raw from rfl,
          hcats2]
        simp
      obtain ⟨r2, hr2, heq⟩ := List.mem_map.mp hc0
      rw [naCell] at heq
      intro hcon
      split at heq
      · simp at heq
      · rename_i hnotin
        injection heq with h3
        rw [h3, hcon] at hnotin
        exact hnotin (by simp)
    have hc1q : c1 ≠ "?" := by
      have hc1 : Cell.str c1 ∈ raw.map (fun r => naCell ["?"] (r.getD 1 "")) := by
        apply catOf_src
        rw [show catOf (raw.map (fun r => naCell ["?"] (r.getD 1 ""))) = progCats raw from rfl,
          hcats2]
        simp
      obtain ⟨r2, hr2, heq⟩ := List.mem_map.mp hc1
      rw [naCell] at heq
      intro hcon
      split at heq
      · simp at heq
      · rename_i hnotin
        injection heq with h3
        rw [h3, hcon] at hnotin
        exact hnotin (by simp)
    refine ⟨progX raw, progY raw, prog_load_eq raw hwf, hsorted, ?_⟩
    intro i hi
    have hrow : (progY raw).rows.getD i [] =
        [progOutcomeCell raw (raw.getD i []), naCell ["?"] ((raw.getD i []).getD 2 "")] := by
      have hrows : (progY raw).rows = raw.map (fun r =>
          [progOutcomeCell raw r, naCell ["?"] (r.getD 2 "")]) := rfl
      rw [hrows, getD_map_lt _ raw hi [] []]
    constructor
    · intro hc
      rw [hrow]
      show progOutcomeCell raw (raw.getD i []) = Cell.str "nonrecurring"
      rw [progOutcomeCell, hc, naCell, if_neg (by simp [hc0q])]
      rw [hcats2]
      simp [idxOf]
    · intro hc
      rw [hrow]
      show progOutcomeCell raw (raw.getD i []) = Cell.str "recurring"
      rw [progOutcomeCell, hc, naCell, if_neg (by simp [hc1q])]
      rw [hcats2]
      simp [idxOf, hne.symm]
  · intro raw hlen hcats3
    exact prog_load_valueError raw hlen (by omega)

/-- Witness for claim C3: the positional mapping at the synthetic
diagnosis and prognosis files, and the value-error failures at files with
a third label code. -/
theorem claim_C3_witness :
    diagWF diagFile5 = true ∧ diagCats diagFile5 = ["B", "M"] ∧
    (∃ X y, load_wisconsin_breast_cancer_diagnosis diagFile5 = .ok (X, y) ∧
      strLt "B" "M" = true ∧
      (∀ i, i < diagFile5.length →
        ((diagFile5.getD i []).getD 1 "" = "B" →
          y.values.getD i Cell.missing = Cell.str "benign") ∧
        ((diagFile5.getD i []).getD 1 "" = "M" →
          y.values.getD i Cell.missing = Cell.str "malignant"))) ∧
    (∀ r ∈ diagFile3c, r.length = 32) ∧ (diagCats diagFile3c).length = 3 ∧
    load_wisconsin_breast_cancer_diagnosis diagFile3c = .error .valueError ∧
    progWF progFile2 = true ∧ progCats progFile2 = ["N", "R"] ∧
    (∃ X y, load_wisconsin_breast_cancer_prognosis progFile2 = .ok (X, y) ∧
      strLt "N" "R" = true ∧
      (∀ i, i < progFile2.length →
        ((progFile2.getD i []).getD 1 "" = "N" →
          (y.rows.getD i []).getD 0 Cell.missing = Cell.str "nonrecurring") ∧
        ((progFile2.getD i []).getD 1 "" = "R" →
          (y.rows.getD i []).getD 0 Cell.missing = Cell.str "recurring"))) ∧
    (∀ r ∈ progFile3c, r.length = 35) ∧ (progCats progFile3c).length = 3 ∧
    load_wisconsin_breast_cancer_prognosis progFile3c = .error .valueError :=
  ⟨by decide, by decide,
   claim_C3.1 diagFile5 "B" "M" (by decide) (by decide),
   by decide, by decide,
   claim_C3.2.1 diagFile3c (by decide) (by decide),
   by decide, by decide,
   claim_C3.2.2.1 progFile2 "N" "R" (by decide) (by decide),
   by decide, by decide,
   claim_C3.2.2.2 progFile3c (by decide) (by decide)⟩

end WBC

namespace WBC

/-- A prognosis file with the missing token in the mean_radius field (the
first image feature, a field the spec designates numeric and not
nullable) of the first row. -/
def progFileQRadius : List (List String) :=
  [["1", "N", "10", "?"] ++ List.replicate 29 "0.5" ++ ["2.0", "3"],
   progRowMk "2" "R" "20" "3.0" "4"]

/-- A diagnosis file with the missing token in the mean_radius field of
the first row. -/
def diagFileQ : List (List String) :=
  [["9", "B", "?"] ++ List.replicate 29 "0.5", diagRowMk "10" "M"]

/-- The cell at row i, position j of the features table of a prognosis
load result (a sentinel literal on error or out-of-range access). -/
def progFeatCell (res : Except LoadError (NumFrame × DataFrame)) (i j : Nat) : NumCell :=
  match res with
  | .ok (X, _) => (X.rows.getD i []).getD j (NumCell.num "")
  | .error _ => NumCell.num ""

/-- Counterexample to claim C4 as stated: in the prognosis loader the
missing token is passed as na_values for the whole file, so a file with
the token in the mean_radius field (numeric, not designated nullable)
loads successfully with a missing marker instead of failing with a
type-coercion error. -/
theorem claim_C4_counterexample :
    isOkE (load_wisconsin_breast_cancer_prognosis progFileQRadius) = true ∧
    load_wisconsin_breast_cancer_prognosis progFileQRadius ≠ .error .typeError ∧
    progFeatCell (load_wisconsin_breast_cancer_prognosis progFileQRadius) 0 0 = NumCell.missing := by
  have hOk : isOkE (load_wisconsin_breast_cancer_prognosis progFileQRadius) = true := by decide
  refine ⟨hOk, ?_, by decide⟩
  intro hcon
  rw [hcon] at hOk
  exact absurd hOk (by decide)

/-- Claim C4 as amended: the missing token fails with a type-coercion
error only in the diagnosis variant, where no na_values are passed; in
the prognosis variant na_values applies to every column, so the token in
any coerced numeric field decodes to a missing marker and the load
succeeds. -/
theorem claim_C4 :
    (∀ raw : List (List String), (∀ r ∈ raw, r.length = 32) →
      (diagCats raw).length = 2 →
      (∃ r ∈ raw, "?" ∈ r.drop 2) →
      load_wisconsin_breast_cancer_diagnosis raw = .error .typeError) ∧
    (∀ raw : List (List String), progWF raw = true →
      ∃ X y, load_wisconsin_breast_cancer_prognosis raw = .ok (X, y) ∧
        (∀ i j, i < raw.length → j < 32 →
          ((raw.getD i []).drop 3).getD j "" = "?" →
          (X.rows.getD i []).getD j (NumCell.num "") = NumCell.missing)) := by
  constructor
  · intro raw hlen hcats hbad
    apply diag_load_typeError raw hlen hcats
    obtain ⟨r, hr, hq⟩ := hbad
    exact ⟨r, hr, "?", hq, by decide⟩
  · intro raw hwf
    obtain ⟨hlen, hnum, hcats⟩ := progWF_unpack hwf
    refine ⟨progX raw, progY raw, prog_load_eq raw hwf, ?_⟩
    intro i j hi hj hq
    have hrmem : raw.getD i [] ∈ raw := by
      rw [List.getD_eq_getElem raw [] hi]
      exact List.getElem_mem hi
    have h35 := hlen _ hrmem
    have hlen3 : j < ((raw.getD i []).tail.tail.tail).length := by
      simp only [List.length_tail]
      omega
    have hrows : (progX raw).rows = raw.map (fun r => r.tail.tail.tail.map (numOfNa ["?"])) := rfl
    rw [hrows, getD_map_lt (fun r => r.tail.tail.tail.map (numOfNa ["?"])) raw hi [] [],
      getD_map_lt (numOfNa ["?"]) ((raw.getD i []).tail.tail.tail) hlen3 (NumCell.num "") ""]
    rw [← drop_three_eq, hq]
    simp [numOfNa]

/-- Witness for the amended claim C4: the diagnosis load of a file with
the missing token in a numeric field fails with a type error, while the
prognosis load of such a file succeeds with a missing marker. -/
theorem claim_C4_witness :
    (∀ r ∈ diagFileQ, r.length = 32) ∧ (diagCats diagFileQ).length = 2 ∧
    (∃ r ∈ diagFileQ, "?" ∈ r.drop 2) ∧
    load_wisconsin_breast_cancer_diagnosis diagFileQ = .error .typeError ∧
    progWF progFileQRadius = true ∧
    (∃ X y, load_wisconsin_breast_cancer_prognosis progFileQRadius = .ok (X, y) ∧
      (∀ i j, i < progFileQRadius.length → j < 32 →
        ((progFileQRadius.getD i []).drop 3).getD j "" = "?" →
        (X.rows.getD i []).getD j (NumCell.num "") = NumCell.missing)) :=
  ⟨by decide, by decide, by decide,
   claim_C4.1 diagFileQ (by decide) (by decide) (by decide),
   by decide,
   claim_C4.2 progFileQRadius (by decide)⟩

/-- A prognosis file with a non-numeric time field in the first row. -/
def progFileBadTime : List (List String) :=
  [["1", "N", "abc"] ++ sampleFeats ++ ["2.0", "3"],
   progRowMk "2" "R" "20" "3.0" "4"]

/-- A diagnosis file with a non-numeric feature field. -/
def diagFileAbc : List (List String) :=
  [["9", "B", "abc"] ++ List.replicate 29 "0.5", diagRowMk "10" "M"]

/-- A prognosis file with a non-numeric tumor_size field. -/
def progFileAbc : List (List String) :=
  [progRowMk "1" "N" "10" "abc" "3", progRowMk "2" "R" "20" "3.0" "4"]

/-- The time cell at row i of the labels frame of a prognosis load
result. -/
def progTimeCell (res : Except LoadError (NumFrame × DataFrame)) (i : Nat) : Cell :=
  match res with
  | .ok (_, y) => (y.rows.getD i []).getD 1 Cell.missing
  | .error _ => Cell.missing

/-- Counterexample to claim C7 as stated: the prognosis time column is
designated numeric by the spec but is never coerced by the loader (it
lives in the labels frame, which is not cast to float), so a file with a
non-numeric time value loads successfully and retains the raw string. -/
theorem claim_C7_counterexample :
    isOkE (load_wisconsin_breast_cancer_prognosis progFileBadTime) = true ∧
    load_wisconsin_breast_cancer_prognosis progFileBadTime ≠ .error .typeError ∧
    progTimeCell (load_wisconsin_breast_cancer_prognosis progFileBadTime) 0 = Cell.str "abc" := by
  have hOk : isOkE (load_wisconsin_breast_cancer_prognosis progFileBadTime) = true := by decide
  refine ⟨hOk, ?_, by decide⟩
  intro hcon
  rw [hcon] at hOk
  exact absurd hOk (by decide)

/-- Claim C7 as amended: both loaders fail on an absent file, fail with a
parse error when some row does not match the fixed schema width (32 for
diagnosis, 35 for prognosis), and fail with a type-coercion error when a
cell of a coerced column (the 30 features for diagnosis; the 30 features
plus tumor_size and lymph_node_status for prognosis) is neither numeric
nor the tolerated missing token; the prognosis time column is exempt
because it is never coerced.  In every case the caller receives either a
success or an error - there is no partial result. -/
theorem claim_C7 :
    (∀ (fs : FileSys) (p : String), fs p = none →
      runLoadDiagnosis fs p = .error .fileNotFound ∧
      runLoadPrognosis fs p = .error .fileNotFound) ∧
    (∀ raw : List (List String), (∃ r ∈ raw, r.length ≠ 32) →
      load_wisconsin_breast_cancer_diagnosis raw = .error .parserError) ∧
    (∀ raw : List (List String), (∃ r ∈ raw, r.length ≠ 35) →
      load_wisconsin_breast_cancer_prognosis raw = .error .parserError) ∧
    (∀ raw : List (List String), (∀ r ∈ raw, r.length = 32) →
      (diagCats raw).length = 2 →
      (∃ r ∈ raw, ∃ s ∈ r.drop 2, isNumericStr s = false) →
      load_wisconsin_breast_cancer_diagnosis raw = .error .typeError) ∧
    (∀ raw : List (List String), (∀ r ∈ raw, r.length = 35) →
      (progCats raw).length = 2 →
      (∃ r ∈ raw, ∃ s ∈ r.drop 3, isNumericStr s = false ∧ s ≠ "?") →
      load_wisconsin_breast_cancer_prognosis raw = .error .typeError) ∧
    (∀ raw : List (List String),
      (∃ res, load_wisconsin_breast_cancer_diagnosis raw = .ok res) ∨
      (∃ e, load_wisconsin_breast_cancer_diagnosis raw = .error e)) ∧
    (∀ raw : List (List String),
      (∃ res, load_wisconsin_breast_cancer_prognosis raw = .ok res) ∨
      (∃ e, load_wisconsin_breast_cancer_prognosis raw = .error e)) := by
  refine ⟨?_, ?_, ?_, ?_, ?_, ?_, ?_⟩
  · intro fs p hp
    unfold runLoadDiagnosis runLoadPrognosis
    rw [hp]
    exact ⟨rfl, rfl⟩
  · exact diag_load_parserError
  · exact prog_load_parserError
  · exact diag_load_typeError
  · exact prog_load_typeError
  · intro raw
    rcases h : load_wisconsin_breast_cancer_diagnosis raw with e | res
    · right
      exact ⟨e, rfl⟩
    · left
      exact ⟨res, rfl⟩
  · intro raw
    rcases h : load_wisconsin_breast_cancer_prognosis raw with e | res
    · right
      exact ⟨e, rfl⟩
    · left
      exact ⟨res, rfl⟩

/-- Witness for the amended claim C7 at concrete inputs: an absent file,
short rows, and non-numeric coerced cells. -/
theorem claim_C7_witness :
    ((fun _ => none) : FileSys) "datasets/wdbc.data" = none ∧
    (runLoadDiagnosis (fun _ => none) "datasets/wdbc.data" = .error .fileNotFound ∧
     runLoadPrognosis (fun _ => none) "datasets/wdbc.data" = .error .fileNotFound) ∧
    (∃ r ∈ [[("1" : String), "B"]], r.length ≠ 32) ∧
    load_wisconsin_breast_cancer_diagnosis [["1", "B"]] = .error .parserError ∧
    (∃ r ∈ [[("1" : String), "N"]], r.length ≠ 35) ∧
    load_wisconsin_breast_cancer_prognosis [["1", "N"]] = .error .parserError ∧
    (∀ r ∈ diagFileAbc, r.length = 32) ∧ (diagCats diagFileAbc).length = 2 ∧
    (∃ r ∈ diagFileAbc, ∃ s ∈ r.drop 2, isNumericStr s = false) ∧
    load_wisconsin_breast_cancer_diagnosis diagFileAbc = .error .typeError ∧
    (∀ r ∈ progFileAbc, r.length = 35) ∧ (progCats progFileAbc).length = 2 ∧
    (∃ r ∈ progFileAbc, ∃ s ∈ r.drop 3, isNumericStr s = false ∧ s ≠ "?") ∧
    load_wisconsin_breast_cancer_prognosis progFileAbc = .error .typeError :=
  ⟨rfl,
   (claim_C7.1 (fun _ => none) "datasets/wdbc.data" rfl),
   by decide,
   claim_C7.2.1 [["1", "B"]] (by decide),
   by decide,
   claim_C7.2.2.1 [["1", "N"]] (by decide),
   by decide, by decide, by decide,
   claim_C7.2.2.2.1 diagFileAbc (by decide) (by decide) (by decide),
   by decide, by decide, by decide,
   claim_C7.2.2.2.2.1 progFileAbc (by decide) (by decide) (by decide)⟩

end WBC

namespace WBC

lemma drop_append_exact {α : Type} {l1 : List α} (l2 : List α) {n : Nat} (h : l1.length = n) :
    (l1 ++ l2).drop n = l2 := by
  subst h
  exact List.drop_left l1 l2

lemma getD_map_range {β : Type} (f : Nat → β) {n j : Nat} (hj : j < n) (d : β) :
    ((List.range n).map f).getD j d = f j := by
  rw [getD_map_lt f (List.range n) (by simpa using hj) d 0]
  congr 1
  rw [List.getD_eq_getElem (List.range n) 0 (by simpa using hj)]
  exact List.getElem_range j _

lemma diagWF_pack {raw : List (List String)}
    (h1 : ∀ r ∈ raw, r.length = 32)
    (h2 : ∀ r ∈ raw, ∀ s ∈ r.drop 2, isNumericStr s = true)
    (h3 : (diagCats raw).length = 2) : diagWF raw = true := by
  simp only [diagWF, Bool.and_eq_true, List.all_eq_true, beq_iff_eq]
  exact ⟨⟨h1, h2⟩, h3⟩

lemma progWF_pack {raw : List (List String)}
    (h1 : ∀ r ∈ raw, r.length = 35)
    (h2 : ∀ r ∈ raw, ∀ s ∈ r.drop 3, isNumericStr s = true ∨ s = "?")
    (h3 : (progCats raw).length = 2) : progWF raw = true := by
  simp only [progWF, Bool.and_eq_true, List.all_eq_true, beq_iff_eq, Bool.or_eq_true]
  exact ⟨⟨h1, h2⟩, h3⟩

/-- The diagnosis file with the contents of the 30 feature columns of
every row permuted by sigma; identifier and label fields unchanged. -/
def permuteDiagFile (sigma : Nat → Nat) (raw : List (List String)) : List (List String) :=
  raw.map (fun r => r.take 2 ++ (List.range 30).map (fun j => (r.drop 2).getD (sigma j) ""))

lemma diag_permute_spec :
    ∀ (sigma : Nat → Nat) (raw : List (List String)), diagWF raw = true →
      (∀ j, j < 30 → sigma j < 30) →
      ∃ X y X2 y2,
        load_wisconsin_breast_cancer_diagnosis raw = .ok (X, y) ∧
        load_wisconsin_breast_cancer_diagnosis (permuteDiagFile sigma raw) = .ok (X2, y2) ∧
        X2.columns = X.columns ∧
        y2 = y ∧
        (∀ i j, i < raw.length → j < 30 →
          (X2.rows.getD i []).getD j (NumCell.num "") =
            (X.rows.getD i []).getD (sigma j) (NumCell.num "")) := by
  intro sigma raw hwf hs
  obtain ⟨hlen, hnum, hcats⟩ := diagWF_unpack hwf
  have hdrop2 : ∀ r ∈ raw,
      (r.take 2 ++ (List.range 30).map (fun j => (r.drop 2).getD (sigma j) "")).drop 2
        = (List.range 30).map (fun j => (r.drop 2).getD (sigma j) "") := by
    intro r hr
    have htk : (r.take 2).length = 2 := by
      simp [List.length_take, hlen r hr]
    exact drop_append_exact _ htk
  have hlen2 : ∀ r2 ∈ permuteDiagFile sigma raw, r2.length = 32 := by
    intro r2 hr2
    obtain ⟨r, hr, rfl⟩ := List.mem_map.mp hr2
    simp [List.length_take, hlen r hr]
  have hnum2 : ∀ r2 ∈ permuteDiagFile sigma raw, ∀ s ∈ r2.drop 2, isNumericStr s = true := by
    intro r2 hr2 s hsmem
    obtain ⟨r, hr, rfl⟩ := List.mem_map.mp hr2
    rw [hdrop2 r hr] at hsmem
    obtain ⟨j, hj, rfl⟩ := List.mem_map.mp hsmem
    rw [List.mem_range] at hj
    have hdl : (r.drop 2).length = 30 := by
      simp [List.length_drop, hlen r hr]
    have hjs : sigma j < (r.drop 2).length := by
      rw [hdl]
      exact hs j hj
    rw [List.getD_eq_getElem (r.drop 2) "" hjs]
    exact hnum r hr _ (List.getElem_mem hjs)
  have hget1 : ∀ r ∈ raw,
      (r.take 2 ++ (List.range 30).map (fun j => (r.drop 2).getD (sigma j) "")).getD 1 ""
        = r.getD 1 "" := by
    intro r hr
    obtain ⟨a, b, rest, hab⟩ := exists_cons2 (by rw [hlen r hr]; norm_num)
    subst hab
    rfl
  have hhead : ∀ r ∈ raw,
      (r.take 2 ++ (List.range 30).map (fun j => (r.drop 2).getD (sigma j) "")).headD ""
        = r.headD "" := by
    intro r hr
    obtain ⟨a, b, rest, hab⟩ := exists_cons2 (by rw [hlen r hr]; norm_num)
    subst hab
    rfl
  have hcats2 : diagCats (permuteDiagFile sigma raw) = diagCats raw := by
    rw [diagCats, diagCats, permuteDiagFile, List.map_map]
    congr 1
    apply List.map_congr_left
    intro r hr
    simp only [Function.comp]
    rw [hget1 r hr]
  have hwf2 : diagWF (permuteDiagFile sigma raw) = true :=
    diagWF_pack hlen2 hnum2 (by rw [hcats2]; exact hcats)
  refine ⟨diagX raw, diagY raw, diagX (permuteDiagFile sigma raw), diagY (permuteDiagFile sigma raw),
    diag_load_eq raw hwf, diag_load_eq _ hwf2, rfl, ?_, ?_⟩
  · have hidx : (diagY (permuteDiagFile sigma raw)).index = (diagY raw).index := by
      show (permuteDiagFile sigma raw).map (fun r => r.headD "") = raw.map (fun r => r.headD "")
      rw [permuteDiagFile, List.map_map]
      apply List.map_congr_left
      intro r hr
      simp only [Function.comp]
      rw [hhead r hr]
    have hvals : (diagY (permuteDiagFile sigma raw)).values = (diagY raw).values := by
      show (permuteDiagFile sigma raw).map _ = raw.map _
      rw [hcats2]
      rw [permuteDiagFile, List.map_map]
      apply List.map_congr_left
      intro r hr
      simp only [Function.comp]
      rw [hget1 r hr]
    cases hY : diagY (permuteDiagFile sigma raw)
    cases hY2 : diagY raw
    rw [hY] at hidx hvals
    rw [hY2] at hidx hvals
    simp at hidx hvals
    simp [hidx, hvals]
  · intro i j hi hj
    have hrmem : raw.getD i [] ∈ raw := by
      rw [List.getD_eq_getElem raw [] hi]
      exact List.getElem_mem hi
    have h32 := hlen _ hrmem
    have hXr : (diagX raw).rows.getD i [] =
        ((raw.getD i []).tail.tail).map (fun s => NumCell.num s) := by
      have hrw : (diagX raw).rows = raw.map (fun r => r.tail.tail.map (fun s => NumCell.num s)) := rfl
      rw [hrw, getD_map_lt _ raw hi [] []]
    have hX2r : (diagX (permuteDiagFile sigma raw)).rows.getD i [] =
        (((raw.getD i []).take 2 ++
          (List.range 30).map (fun j2 => ((raw.getD i []).drop 2).getD (sigma j2) "")).tail.tail).map
            (fun s => NumCell.num s) := by
      have hrw : (diagX (permuteDiagFile sigma raw)).rows =
          raw.map (fun r => ((r.take 2 ++
            (List.range 30).map (fun j2 => (r.drop 2).getD (sigma j2) "")).tail.tail).map
              (fun s => NumCell.num s)) := by
        show (permuteDiagFile sigma raw).map _ = _
        rw [permuteDiagFile, List.map_map]
        rfl
      rw [hrw, getD_map_lt _ raw hi [] []]
    rw [hXr, hX2r]
    rw [← drop_two_eq, hdrop2 _ hrmem]
    have hrange_len : j < ((List.range 30).map
        (fun j2 => ((raw.getD i []).drop 2).getD (sigma j2) "")).length := by
      simpa using hj
    rw [getD_map_lt (fun s => NumCell.num s) _ hrange_len (NumCell.num "") ""]
    rw [getD_map_range (fun j2 => ((raw.getD i []).drop 2).getD (sigma j2) "") hj ""]
    have hdl : ((raw.getD i []).tail.tail).length = 30 := by
      simp only [List.length_tail]
      omega
    rw [getD_map_lt (fun s => NumCell.num s) ((raw.getD i []).tail.tail)
      (by rw [hdl]; exact hs j hj) (NumCell.num "") ""]
    rw [drop_two_eq]

end WBC

namespace WBC

/-- The prognosis file with the contents of the 30 image-feature columns
of every row permuted by sigma; identifier, outcome, time, tumor_size and
lymph_node_status unchanged. -/
def permuteProgFile (sigma : Nat → Nat) (raw : List (List String)) : List (List String) :=
  raw.map (fun r => r.take 3 ++
    ((List.range 30).map (fun j => (r.drop 3).getD (sigma j) "") ++
     [(r.drop 3).getD 30 "", (r.drop 3).getD 31 ""]))

lemma prog_permute_spec :
    ∀ (sigma : Nat → Nat) (raw : List (List String)), progWF raw = true →
      (∀ j, j < 30 → sigma j < 30) →
      ∃ X y X2 y2,
        load_wisconsin_breast_cancer_prognosis raw = .ok (X, y) ∧
        load_wisconsin_breast_cancer_prognosis (permuteProgFile sigma raw) = .ok (X2, y2) ∧
        X2.columns = X.columns ∧
        y2 = y ∧
        (∀ i j, i < raw.length → j < 30 →
          (X2.rows.getD i []).getD j (NumCell.num "") =
            (X.rows.getD i []).getD (sigma j) (NumCell.num "")) := by
  intro sigma raw hwf hs
  obtain ⟨hlen, hnum, hcats⟩ := progWF_unpack hwf
  have hdrop3 : ∀ r ∈ raw,
      (r.take 3 ++
        ((List.range 30).map (fun j => (r.drop 3).getD (sigma j) "") ++
         [(r.drop 3).getD 30 "", (r.drop 3).getD 31 ""])).drop 3
        = (List.range 30).map (fun j => (r.drop 3).getD (sigma j) "") ++
          [(r.drop 3).getD 30 "", (r.drop 3).getD 31 ""] := by
    intro r hr
    have htk : (r.take 3).length = 3 := by
      simp [List.length_take, hlen r hr]
    exact drop_append_exact _ htk
  have hdlen : ∀ r ∈ raw, (r.drop 3).length = 32 := by
    intro r hr
    simp [List.length_drop, hlen r hr]
  have hlen2 : ∀ r2 ∈ permuteProgFile sigma raw, r2.length = 35 := by
    intro r2 hr2
    obtain ⟨r, hr, rfl⟩ := List.mem_map.mp hr2
    simp [List.length_take, hlen r hr]
  have hnum2 : ∀ r2 ∈ permuteProgFile sigma raw, ∀ s ∈ r2.drop 3,
      isNumericStr s = true ∨ s = "?" := by
    intro r2 hr2 s hsmem
    obtain ⟨r, hr, rfl⟩ := List.mem_map.mp hr2
    rw [hdrop3 r hr] at hsmem
    rcases List.mem_append.mp hsmem with hmid | htl
    · obtain ⟨j, hj, rfl⟩ := List.mem_map.mp hmid
      rw [List.mem_range] at hj
      have hjs : sigma j < (r.drop 3).length := by
        rw [hdlen r hr]
        exact lt_trans (hs j hj) (by norm_num)
      rw [List.getD_eq_getElem (r.drop 3) "" hjs]
      exact hnum r hr _ (List.getElem_mem hjs)
    · have h30 : (30 : Nat) < (r.drop 3).length := by
        rw [hdlen r hr]
        norm_num
      have h31 : (31 : Nat) < (r.drop 3).length := by
        rw [hdlen r hr]
        norm_num
      rcases List.mem_cons.mp htl with rfl | htl2
      · rw [List.getD_eq_getElem (r.drop 3) "" h30]
        exact hnum r hr _ (List.getElem_mem h30)
      · rcases List.mem_cons.mp htl2 with rfl | htl3
        · rw [List.getD_eq_getElem (r.drop 3) "" h31]
          exact hnum r hr _ (List.getElem_mem h31)
        · simp at htl3
  have hget1 : ∀ r ∈ raw,
      (r.take 3 ++
        ((List.range 30).map (fun j => (r.drop 3).getD (sigma j) "") ++
         [(r.drop 3).getD 30 "", (r.drop 3).getD 31 ""])).getD 1 ""
        = r.getD 1 "" := by
    intro r hr
    obtain ⟨a, b, c, rest, habc⟩ := exists_cons3 (by rw [hlen r hr]; norm_num)
    subst habc
    rfl
  have hget2 : ∀ r ∈ raw,
      (r.take 3 ++
        ((List.range 30).map (fun j => (r.drop 3).getD (sigma j) "") ++
         [(r.drop 3).getD 30 "", (r.drop 3).getD 31 ""])).getD 2 ""
        = r.getD 2 "" := by
    intro r hr
    obtain ⟨a, b, c, rest, habc⟩ := exists_cons3 (by rw [hlen r hr]; norm_num)
    subst habc
    rfl
  have hhead : ∀ r ∈ raw,
      (r.take 3 ++
        ((List.range 30).map (fun j => (r.drop 3).getD (sigma j) "") ++
         [(r.drop 3).getD 30 "", (r.drop 3).getD 31 ""])).headD ""
        = r.headD "" := by
    intro r hr
    obtain ⟨a, b, c, rest, habc⟩ := exists_cons3 (by rw [hlen r hr]; norm_num)
    subst habc
    rfl
  have hcats2 : progCats (permuteProgFile sigma raw) = progCats raw := by
    rw [progCats, progCats, permuteProgFile, List.map_map]
    congr 1
    apply List.map_congr_left
    intro r hr
    simp only [Function.comp]
    rw [hget1 r hr]
  have hwf2 : progWF (permuteProgFile sigma raw) = true :=
    progWF_pack hlen2 hnum2 (by rw [hcats2]; exact hcats)
  refine ⟨progX raw, progY raw, progX (permuteProgFile sigma raw), progY (permuteProgFile sigma raw),
    prog_load_eq raw hwf, prog_load_eq _ hwf2, rfl, ?_, ?_⟩
  · have hidx : (progY (permuteProgFile sigma raw)).index = (progY raw).index := by
      show (permuteProgFile sigma raw).map (fun r => r.headD "") = raw.map (fun r => r.headD "")
      rw [permuteProgFile, List.map_map]
      apply List.map_congr_left
      intro r hr
      simp only [Function.comp]
      rw [hhead r hr]
    have hocfun : progOutcomeCell (permuteProgFile sigma raw) = progOutcomeCell raw := by
      funext r0
      rw [progOutcomeCell, progOutcomeCell, hcats2]
    have hrows : (progY (permuteProgFile sigma raw)).rows = (progY raw).rows := by
      show (permuteProgFile sigma raw).map _ = raw.map _
      rw [hocfun]
      rw [permuteProgFile, List.map_map]
      apply List.map_congr_left
      intro r hr
      simp only [Function.comp]
      have hoc : progOutcomeCell raw
          (r.take 3 ++
            ((List.range 30).map (fun j => (r.drop 3).getD (sigma j) "") ++
             [(r.drop 3).getD 30 "", (r.drop 3).getD 31 ""]))
          = progOutcomeCell raw r := by
        rw [progOutcomeCell, progOutcomeCell, hget1 r hr]
      rw [hoc, hget2 r hr]
    have hcols : (progY (permuteProgFile sigma raw)).columns = (progY raw).columns := rfl
    cases hY : progY (permuteProgFile sigma raw)
    cases hY2 : progY raw
    rw [hY] at hidx hrows hcols
    rw [hY2] at hidx hrows hcols
    simp at hidx hrows hcols
    simp [hidx, hrows, hcols]
  · intro i j hi hj
    have hrmem : raw.getD i [] ∈ raw := by
      rw [List.getD_eq_getElem raw [] hi]
      exact List.getElem_mem hi
    have h35 := hlen _ hrmem
    have hXr : (progX raw).rows.getD i [] =
        ((raw.getD i []).tail.tail.tail).map (numOfNa ["?"]) := by
      have hrw : (progX raw).rows = raw.map (fun r => r.tail.tail.tail.map (numOfNa ["?"])) := rfl
      rw [hrw, getD_map_lt _ raw hi [] []]
    have hX2r : (progX (permuteProgFile sigma raw)).rows.getD i [] =
        (((raw.getD i []).take 3 ++
          ((List.range 30).map (fun j2 => ((raw.getD i []).drop 3).getD (sigma j2) "") ++
           [((raw.getD i []).drop 3).getD 30 "", ((raw.getD i []).drop 3).getD 31 ""])).tail.tail.tail).map
            (numOfNa ["?"]) := by
      have hrw : (progX (permuteProgFile sigma raw)).rows =
          raw.map (fun r => ((r.take 3 ++
            ((List.range 30).map (fun j2 => (r.drop 3).getD (sigma j2) "") ++
             [(r.drop 3).getD 30 "", (r.drop 3).getD 31 ""])).tail.tail.tail).map
              (numOfNa ["?"])) := by
        show (permuteProgFile sigma raw).map _ = _
        rw [permuteProgFile, List.map_map]
        rfl
      rw [hrw, getD_map_lt _ raw hi [] []]
    rw [hXr, hX2r]
    rw [← drop_three_eq, hdrop3 _ hrmem]
    rw [List.map_append]
    have hrange_len : j < (((List.range 30).map
        (fun j2 => ((raw.getD i []).drop 3).getD (sigma j2) "")).map (numOfNa ["?"])).length := by
      simpa using hj
    rw [List.getD_append _ _ (NumCell.num "") j hrange_len]
    rw [getD_map_lt (numOfNa ["?"]) _ (by simpa using hj) (NumCell.num "") ""]
    rw [getD_map_range (fun j2 => ((raw.getD i []).drop 3).getD (sigma j2) "") hj ""]
    have hdl : ((raw.getD i []).tail.tail.tail).length = 32 := by
      simp only [List.length_tail]
      omega
    rw [getD_map_lt (numOfNa ["?"]) ((raw.getD i []).tail.tail.tail)
      (by rw [hdl]; exact lt_trans (hs j hj) (by norm_num)) (NumCell.num "") ""]
    rw [drop_three_eq]

end WBC

namespace WBC

/-- Claim C8: the loaders perform no header or column-order validation.
For every well-formed file and every within-range reindexing sigma of the
30 feature positions (in particular every permutation), the file whose
feature-column contents are permuted by sigma still loads successfully,
with the same positionally assigned column names and unchanged labels,
and with every feature cell silently mis-mapped: cell j of the permuted
load equals cell sigma j of the original load. -/
theorem claim_C8 :
    (∀ (sigma : Nat → Nat) (raw : List (List String)), diagWF raw = true →
      (∀ j, j < 30 → sigma j < 30) →
      ∃ X y X2 y2,
        load_wisconsin_breast_cancer_diagnosis raw = .ok (X, y) ∧
        load_wisconsin_breast_cancer_diagnosis (permuteDiagFile sigma raw) = .ok (X2, y2) ∧
        X2.columns = X.columns ∧
        y2 = y ∧
        (∀ i j, i < raw.length → j < 30 →
          (X2.rows.getD i []).getD j (NumCell.num "") =
            (X.rows.getD i []).getD (sigma j) (NumCell.num ""))) ∧
    (∀ (sigma : Nat → Nat) (raw : List (List String)), progWF raw = true →
      (∀ j, j < 30 → sigma j < 30) →
      ∃ X y X2 y2,
        load_wisconsin_breast_cancer_prognosis raw = .ok (X, y) ∧
        load_wisconsin_breast_cancer_prognosis (permuteProgFile sigma raw) = .ok (X2, y2) ∧
        X2.columns = X.columns ∧
        y2 = y ∧
        (∀ i j, i < raw.length → j < 30 →
          (X2.rows.getD i []).getD j (NumCell.num "") =
            (X.rows.getD i []).getD (sigma j) (NumCell.num ""))) :=
  ⟨diag_permute_spec, prog_permute_spec⟩

/-- The reversal permutation of the 30 feature positions. -/
def revPerm (j : Nat) : Nat := 29 - j

/-- Witness for claim C8: reversing the feature columns of the synthetic
files loads without error and mis-maps the cells. -/
theorem claim_C8_witness :
    diagWF diagFile5 = true ∧
    (∀ j, j < 30 → revPerm j < 30) ∧
    progWF progFile2 = true ∧
    (∃ X y X2 y2,
      load_wisconsin_breast_cancer_diagnosis diagFile5 = .ok (X, y) ∧
      load_wisconsin_breast_cancer_diagnosis (permuteDiagFile revPerm diagFile5) = .ok (X2, y2) ∧
      X2.columns = X.columns ∧
      y2 = y ∧
      (∀ i j, i < diagFile5.length → j < 30 →
        (X2.rows.getD i []).getD j (NumCell.num "") =
          (X.rows.getD i []).getD (revPerm j) (NumCell.num ""))) ∧
    (∃ X y X2 y2,
      load_wisconsin_breast_cancer_prognosis progFile2 = .ok (X, y) ∧
      load_wisconsin_breast_cancer_prognosis (permuteProgFile revPerm progFile2) = .ok (X2, y2) ∧
      X2.columns = X.columns ∧
      y2 = y ∧
      (∀ i j, i < progFile2.length → j < 30 →
        (X2.rows.getD i []).getD j (NumCell.num "") =
          (X.rows.getD i []).getD (revPerm j) (NumCell.num ""))) :=
  ⟨by decide, by decide, by decide,
   claim_C8.1 revPerm diagFile5 (by decide) (by decide),
   claim_C8.2 revPerm progFile2 (by decide) (by decide)⟩

end WBC
